import Mathlib

/-!
# Formal model of the fire-calculator core engines

A shallow embedding of the repository's numerical core:

* `Financial.*`  — `src/lib/financial.ts` (annuity present value, the
  multi-pension required-portfolio solver with its closed-form and
  bisection modes, and the `survivesDrawdown` forward simulation);
* `Calculator.*` — `src/lib/calculator.ts` (the deterministic year-by-year
  projection engine `calculateFire` together with its private single-pension
  helpers);
* `MonteCarlo.*` — `src/lib/monteCarlo.ts` (the seeded Monte Carlo engine:
  mulberry32, the string-hash seed, Box–Muller normals, per-path simulation
  and aggregation).

Modelling conventions: JavaScript `number`s carrying money or rates are
idealised as `ℚ` in the deterministic engines (every arithmetic operation
they perform is a field operation or an integer power, so the embedding is
executable and claims can be settled by `decide`), and as `ℝ` in the Monte
Carlo engine (whose Box–Muller transform needs `log`, `cos`, `sqrt`, `exp`).
Ages and year counts are `ℤ`/`ℕ`; every caller in the repository passes
integers for them, and all exponents the code forms from them are integers
(`Math.pow(base, intExp)` becomes `zpow`).  `annuityPV` itself is embedded
over `ℝ` with `rpow`, exactly as specified over real inputs, and the `ℚ`
rendering used inside the solvers is proved to agree with it on integer
payment counts.
-/

namespace Financial

/-- `annuityPV(n, r)` from `src/lib/financial.ts`: present value of `n` unit
payments at periodic rate `r`, over real inputs.  `n ≤ 0` gives `0`; a rate
below the `1e-4` epsilon gives `n`; otherwise `(1 - (1+r)^(-n)) / r`.
Total on all of `ℝ × ℝ`. -/
noncomputable def annuityPV (n r : ℝ) : ℝ :=
  if n ≤ 0 then 0
  else if r < 0.0001 then n
  else (1 - (1 + r) ^ (-n)) / r

/-- Rational rendering of `annuityPV` at an integer payment count, used by
the required-portfolio solvers (which only ever call `annuityPV` on integer
segment durations). `annuityPVQ_cast` proves it agrees with `annuityPV`. -/
def annuityPVQ (n : ℤ) (r : ℚ) : ℚ :=
  if n ≤ 0 then 0
  else if r < 1/10000 then n
  else (1 - (1 + r) ^ (-n)) / r

/-- Pension descriptor from `src/lib/financial.ts`. -/
structure PensionEntry where
  annualAmount : ℚ
  startAge : ℤ

/-- Recurring-income descriptor from `src/lib/financial.ts`. -/
structure RecurringIncomeEntry where
  annualAmount : ℚ
  startAge : ℤ
  annualGrowthRate : ℚ
  includeInFire : Bool

/-- Debt slice passed to `survivesDrawdown` (monthly payment, years left). -/
structure DebtPayment where
  monthlyPayment : ℚ
  yearsLeft : ℤ

/-- One-time future income/expense event (amount, years from simulation start). -/
structure OneTimeEvent where
  amount : ℚ
  yearsFromNow : ℤ

/-- `recurringIncomeAtAge` from `src/lib/financial.ts`: total recurring income
at `age`, each stream grown from its start age and deflated back to the
fire-age price level. -/
def recurringIncomeAtAge (incomes : List RecurringIncomeEntry)
    (age fireAge : ℤ) (inflation : ℚ) : ℚ :=
  (incomes.map (fun inc =>
    if age < inc.startAge then 0
    else inc.annualAmount * (1 + inc.annualGrowthRate) ^ (age - inc.startAge) /
      (1 + inflation) ^ (age - fireAge))).sum

/-- Total annual income of the positive-amount pensions already active at
`age` (the `active.filter(p => p.startAge <= …)` sums of the solver). -/
def activePensionAt (pensions : List PensionEntry) (age : ℤ) : ℚ :=
  (((pensions.filter (fun p => 0 < p.annualAmount)).filter
    (fun p => p.startAge ≤ age)).map (·.annualAmount)).sum

/-- One backward step of the closed-form segment solve: fund the segment's
withdrawals as an annuity and discount the downstream requirement back over
the segment. -/
def segmentStep (retExpensesToday realReturn : ℚ) (pensions : List PensionEntry)
    (seg : ℤ × ℤ) (acc : ℚ) : ℚ :=
  let duration := seg.2 - seg.1
  let withdrawal := max 0 (retExpensesToday - activePensionAt pensions seg.1)
  withdrawal * annuityPVQ duration realReturn + acc / (1 + realReturn) ^ duration

/-- Closed-form branch of `requiredPortfolio` (`lifeExpectancy == null`):
segment-by-segment solve over the sorted distinct pension start ages after
`fireAge`, backwards from the all-pensions-active perpetuity. -/
def requiredPortfolioClosed (retExpensesToday : ℚ) (pensions : List PensionEntry)
    (fireAge : ℤ) (swr realReturn : ℚ) : ℚ :=
  let active := pensions.filter (fun p => 0 < p.annualAmount)
  let totalPension := (active.map (·.annualAmount)).sum
  if active.isEmpty then retExpensesToday / swr
  else
    let breakpoints :=
      (((active.filter (fun p => fireAge < p.startAge)).map (·.startAge)).dedup).insertionSort
        (· ≤ ·)
    if breakpoints.isEmpty then max 0 (retExpensesToday - totalPension) / swr
    else
      let ages := fireAge :: breakpoints
      let finalShortfall := max 0 (retExpensesToday - totalPension)
      (ages.zip ages.tail).foldr (segmentStep retExpensesToday realReturn pensions)
        (finalShortfall / swr)

/-- One year of the `survivesFrom` simulation inside `requiredPortfolio`'s
bisection branch: a `none` state is a already-failed run. -/
def survivesFromStep (retExpensesToday : ℚ) (activePensions : List PensionEntry)
    (fireAge : ℤ) (realReturn inflation : ℚ)
    (recurringIncomes : List RecurringIncomeEntry) (st : Option ℚ) (k : ℕ) : Option ℚ :=
  match st with
  | none => none
  | some p =>
    let age := fireAge + k
    let pensionIncome :=
      ((activePensions.filter (fun q => q.startAge ≤ age)).map (·.annualAmount)).sum
    let extraRecurring := recurringIncomeAtAge recurringIncomes age fireAge inflation
    let withdrawal := max 0 (retExpensesToday - pensionIncome - extraRecurring)
    let p' := p * (1 + realReturn) - withdrawal
    if p' < 0 then none else some p'

/-- The inner `survivesFrom` closure of `requiredPortfolio`'s bisection
branch: simulate from `fireAge` to `lifeExpectancy`, withdrawing the uncovered
part of the expenses each year; `false` as soon as the portfolio drops below
zero. -/
def survivesFrom (retExpensesToday : ℚ) (activePensions : List PensionEntry)
    (fireAge lifeExpectancy : ℤ) (realReturn inflation : ℚ)
    (recurringIncomes : List RecurringIncomeEntry) (startPortfolio : ℚ) : Bool :=
  ((List.range (lifeExpectancy - fireAge + 1).toNat).foldl
    (survivesFromStep retExpensesToday activePensions fireAge realReturn inflation
      recurringIncomes)
    (some startPortfolio)).isSome

/-- The number of times the bisection branch doubles its upper bound: the
least `k` after which the bound survives or has reached the `1e9` cap
(`while (!survivesFrom(high) && high < 1e9) high *= 2`).  Such a `k` exists
because the initial bound is positive, making the cap reachable; the caller
supplies that existence proof. -/
def doublingCount (sf : ℚ → Bool) (high0 : ℚ)
    (h : ∃ k : ℕ, sf (high0 * 2 ^ k) = true ∨ (1000000000 : ℚ) ≤ high0 * 2 ^ k) : ℕ :=
  Nat.find h

/-- One bisection iteration: move the surviving end to the midpoint. -/
def bisectStep (sf : ℚ → Bool) (lh : ℚ × ℚ) : ℚ × ℚ :=
  let mid := (lh.1 + lh.2) / 2
  if sf mid then (lh.1, mid) else (mid, lh.2)

/-- Bisection branch of `requiredPortfolio` (explicit `lifeExpectancy`):
`0` for nonpositive expenses, otherwise double the upper bound until it
survives (capped at `1e9`) and run 60 bisection steps, returning the
surviving upper end. -/
def requiredPortfolioBisect (retExpensesToday : ℚ) (pensions : List PensionEntry)
    (fireAge : ℤ) (swr realReturn : ℚ) (lifeExpectancy : ℤ) (inflation : ℚ)
    (recurringIncomes : List RecurringIncomeEntry) : ℚ :=
  if hE : retExpensesToday ≤ 0 then 0
  else
    let activePensions := pensions.filter (fun p => 0 < p.annualAmount)
    let sf : ℚ → Bool := survivesFrom retExpensesToday activePensions fireAge
      lifeExpectancy realReturn inflation recurringIncomes
    have hex : ∃ k : ℕ,
        sf (max (retExpensesToday / max (1/100) swr) retExpensesToday * 2 * 2 ^ k) = true ∨
        (1000000000 : ℚ) ≤ max (retExpensesToday / max (1/100) swr) retExpensesToday * 2 * 2 ^ k := by
      have hE' : (0 : ℚ) < retExpensesToday := lt_of_not_ge hE
      have h1 : retExpensesToday ≤ max (retExpensesToday / max (1/100) swr) retExpensesToday :=
        le_max_right _ _
      obtain ⟨k, hk⟩ := pow_unbounded_of_one_lt
        ((1000000000 : ℚ) / (max (retExpensesToday / max (1/100) swr) retExpensesToday * 2))
        (by norm_num : (1:ℚ) < 2)
      refine ⟨k, Or.inr ?_⟩
      have h0 : (0 : ℚ) < max (retExpensesToday / max (1/100) swr) retExpensesToday * 2 := by
        nlinarith
      rw [div_lt_iff₀ h0] at hk
      nlinarith
    let high1 := max (retExpensesToday / max (1/100) swr) retExpensesToday * 2 *
      2 ^ doublingCount sf (max (retExpensesToday / max (1/100) swr) retExpensesToday * 2) hex
    ((bisectStep sf)^[60] (0, high1)).2

/-- `requiredPortfolio` from `src/lib/financial.ts`: today's-currency portfolio
target at `fireAge`.  Without a `lifeExpectancy` it uses the closed-form
segment method; with one it uses the finite-horizon bisection method. -/
def requiredPortfolio (retExpensesToday : ℚ) (pensions : List PensionEntry)
    (fireAge : ℤ) (swr realReturn : ℚ) (lifeExpectancy : Option ℤ := none)
    (inflation : ℚ := 0) (recurringIncomes : List RecurringIncomeEntry := []) : ℚ :=
  match lifeExpectancy with
  | none => requiredPortfolioClosed retExpensesToday pensions fireAge swr realReturn
  | some le => requiredPortfolioBisect retExpensesToday pensions fireAge swr realReturn
      le inflation recurringIncomes

/-- `survivesDrawdown` from `src/lib/financial.ts`: forward-simulate drawdown
from `fireAge` to `lifeExpectancy` (inclusive) with multi-pension income,
debts, one-time events and optional recurring incomes; `false` the moment the
portfolio goes negative. -/
def survivesDrawdown (startPortfolio retExpenses inflation netReturn : ℚ)
    (pensions : List PensionEntry) (fireAge fireYearIdx lifeExpectancy : ℤ)
    (debts : List DebtPayment) (futureIncomes futureExpenses : List OneTimeEvent)
    (recurringIncomes : List RecurringIncomeEntry := []) : Bool :=
  ((List.range (lifeExpectancy - fireAge + 1).toNat).foldl
    (fun st y =>
      match st with
      | none => none
      | some s =>
        let age := fireAge + y
        let absYear := fireYearIdx + y
        let pensionIncome :=
          ((pensions.filter (fun pen => pen.startAge ≤ age)).map
            (fun pen => pen.annualAmount / 12 * 12 * (1 + inflation) ^ absYear)).sum
        let recurringIncome :=
          ((recurringIncomes.filter (fun inc => inc.startAge ≤ age)).map
            (fun inc => inc.annualAmount * (1 + inc.annualGrowthRate) ^ absYear)).sum
        let debtPay :=
          ((debts.filter (fun d => (y : ℤ) < d.yearsLeft)).map
            (fun d => d.monthlyPayment * 12)).sum
        let oneTime :=
          ((futureIncomes.filter (fun inc => inc.yearsFromNow = absYear)).map
            (·.amount)).sum -
          ((futureExpenses.filter (fun ex => ex.yearsFromNow = absYear)).map
            (·.amount)).sum
        let totalSpend := s.2 + debtPay
        let withdrawal := max 0 (totalSpend - pensionIncome - recurringIncome)
        let p' := s.1 + s.1 * netReturn - withdrawal + oneTime
        if p' < 0 then none else some (p', s.2 * (1 + inflation)))
    (some (startPortfolio, retExpenses))).isSome

end Financial

/-!
## Input aggregate (`src/types.ts`)

The field set is the union of the two revisions the engines read: the
deterministic calculator consumes the single-pension fields
`pensionMonthlyAmount`/`pensionStartAge`, the Monte Carlo engine consumes the
`pensions` list, `otherAssets`, `annualVolatility`, `annualFees`,
real-estate holdings and recurring incomes.
-/

structure PersonalInfo where
  currentAge : ℤ
  lifeExpectancy : ℤ

structure Pension where
  monthlyAmount : ℚ
  startAge : ℤ

structure IncomeInfo where
  monthlyNetSalary : ℚ
  annualSalaryGrowth : ℚ
  additionalMonthlyIncome : ℚ
  pensionMonthlyAmount : ℚ
  pensionStartAge : ℤ
  pensions : List Pension

structure ExpensesInfo where
  monthlyExpenses : ℚ
  annualInflationRate : ℚ
  postRetirementExpensePercent : ℚ

structure Debt where
  monthlyPayment : ℚ
  remainingYears : ℤ
  interestRate : Option ℚ

structure RealEstateAsset where
  monthlyNetIncome : ℚ
  rentalGrowthRate : Option ℚ

structure AssetsInfo where
  investedAssets : ℚ
  cashSavings : ℚ
  otherAssets : ℚ
  debts : List Debt
  realEstateAssets : List RealEstateAsset

structure InvestmentStrategy where
  expectedAnnualReturn : ℚ
  annualVolatility : Option ℚ
  annualFees : ℚ
  capitalGainsTaxRate : ℚ

structure FutureExpense where
  amount : ℚ
  yearsFromNow : ℤ

structure FutureIncome where
  amount : ℚ
  yearsFromNow : ℤ
  includeInFire : Bool

structure RecurringIncome where
  monthlyAmount : ℚ
  startAge : ℤ
  annualGrowthRate : ℚ
  includeInFire : Bool

structure FireGoals where
  safeWithdrawalRate : ℚ
  monthlyInvestment : ℚ
  futureExpenses : List FutureExpense
  futureIncomes : List FutureIncome
  recurringIncomes : List RecurringIncome

structure FireInputs where
  personalInfo : PersonalInfo
  income : IncomeInfo
  expenses : ExpensesInfo
  assets : AssetsInfo
  investmentStrategy : InvestmentStrategy
  fireGoals : FireGoals

/-- Replace only `investmentStrategy.annualFees`, leaving every other field
of the aggregate unchanged. -/
def setAnnualFees (inputs : FireInputs) (fees : ℚ) : FireInputs :=
  { inputs with investmentStrategy := { inputs.investmentStrategy with annualFees := fees } }

/-- One row of the year-by-year projection (`YearlyProjection` in
`src/types.ts`, as populated by `calculateFire`). -/
structure YearlyProjection where
  year : ℤ
  age : ℤ
  portfolioValue : ℚ
  portfolioOptimistic : ℚ
  portfolioPessimistic : ℚ
  annualContributions : ℚ
  annualInvestmentGrowth : ℚ
  annualExpenses : ℚ
  annualDebtPayments : ℚ
  passiveIncome : ℚ
  totalIncome : ℚ
  cumulativeContributions : ℚ
  cumulativeGrowth : ℚ
  savingsRate : ℚ
  isRetired : Bool

/-- `FireResult` from `src/types.ts`.  `fireDateYear` renders the source's
`fireDate` `Date` object by its year, `startYear + yearsToFire`. -/
structure FireResult where
  fireNumber : ℚ
  fireNumberToday : ℚ
  fireNumberBaseToday : ℚ
  fireAge : ℤ
  fireDateYear : ℤ
  yearsToFire : ℤ
  currentSavingsRate : ℚ
  monthlySavings : ℚ
  coastFireAge : ℤ
  baristaFireIncome : ℚ
  yearlyProjections : List YearlyProjection
  totalContributions : ℚ
  totalGrowth : ℚ
  portfolioAtRetirement : ℚ
  portfolioAt90 : ℚ
  retirementYears : ℤ
  successRate : ℚ
  bridgeGap : ℚ
  bridgeIncomeTotal : ℚ
  pensionCreditToday : ℚ
  debtCostToday : ℚ

namespace Calculator

/-- `annuityPV` as defined locally in `src/lib/calculator.ts` (the same
formula as `Financial.annuityPV`), rendered over `ℚ` at the integer payment
counts (`gapYears`) the calculator passes it. -/
def annuityPV (n : ℤ) (r : ℚ) : ℚ :=
  if n ≤ 0 then 0
  else if r < 1/10000 then n
  else (1 - (1 + r) ^ (-n)) / r

/-- `requiredPortfolio` as defined locally in `src/lib/calculator.ts`:
single-pension gap-plus-residual model. -/
def requiredPortfolio (retExpensesToday pensionAnnualToday : ℚ) (gapYears : ℤ)
    (swr realReturn : ℚ) : ℚ :=
  if pensionAnnualToday ≤ 0 then retExpensesToday / swr
  else
    let shortfall := max 0 (retExpensesToday - pensionAnnualToday)
    let postPensionPortfolio := shortfall / swr
    if gapYears ≤ 0 then postPensionPortfolio
    else
      retExpensesToday * annuityPV gapYears realReturn +
        postPensionPortfolio / (1 + realReturn) ^ gapYears

/-- `survivesDrawdown` as defined locally in `src/lib/calculator.ts`
(single pension version), used by the bridge-strategy check. -/
def survivesDrawdown (startPortfolio retExpenses inflation netReturn
    pensionMonthly : ℚ) (pensionStartAge fireAge fireYearIdx lifeExpectancy : ℤ)
    (debts : List Financial.DebtPayment)
    (futureIncomes futureExpenses : List Financial.OneTimeEvent) : Bool :=
  ((List.range (lifeExpectancy - fireAge + 1).toNat).foldl
    (fun st y =>
      match st with
      | none => none
      | some s =>
        let age := fireAge + y
        let absYear := fireYearIdx + y
        let pensionIncome :=
          if pensionStartAge ≤ age then pensionMonthly * 12 * (1 + inflation) ^ absYear else 0
        let debtPay :=
          ((debts.filter (fun d => (y : ℤ) < d.yearsLeft)).map
            (fun d => d.monthlyPayment * 12)).sum
        let oneTime :=
          ((futureIncomes.filter (fun e => e.yearsFromNow = absYear)).map (·.amount)).sum -
          ((futureExpenses.filter (fun e => e.yearsFromNow = absYear)).map (·.amount)).sum
        let totalSpend := s.2 + debtPay
        let withdrawal := max 0 (totalSpend - pensionIncome)
        let p' := s.1 + s.1 * netReturn - withdrawal + oneTime
        if p' < 0 then none else some (p', s.2 * (1 + inflation)))
    (some (startPortfolio, retExpenses))).isSome

/-- Safe withdrawal rate as a fraction (`fireGoals.safeWithdrawalRate / 100`). -/
def swrOf (inputs : FireInputs) : ℚ := inputs.fireGoals.safeWithdrawalRate / 100

/-- Post-retirement expense factor (`expenses.postRetirementExpensePercent / 100`). -/
def postRetirementFactorOf (inputs : FireInputs) : ℚ :=
  inputs.expenses.postRetirementExpensePercent / 100

/-- The deterministic engine's net return:
`(expectedAnnualReturn/100) × (1 − capitalGainsTaxRate/100)`.  The annual fee
rate does not enter. -/
def netReturnOf (inputs : FireInputs) : ℚ :=
  (inputs.investmentStrategy.expectedAnnualReturn / 100) *
    (1 - inputs.investmentStrategy.capitalGainsTaxRate / 100)

/-- Annual inflation as a fraction. -/
def inflationOf (inputs : FireInputs) : ℚ := inputs.expenses.annualInflationRate / 100

/-- Real return `max(0.001, (1+net)/(1+inflation) − 1)`. -/
def realReturnOf (inputs : FireInputs) : ℚ :=
  max (1/1000) ((1 + netReturnOf inputs) / (1 + inflationOf inputs) - 1)

/-- Mutable loop state of `calculateFire`'s year-by-year simulation, one
field per mutable local of the source loop. -/
structure CalcState where
  portfolio : ℚ
  portfolioOpt : ℚ
  portfolioPess : ℚ
  cumulativeContributions : ℚ
  cumulativeGrowth : ℚ
  salary : ℚ
  additionalIncome : ℚ
  livingExpenses : ℚ
  retirementExpenses : ℚ
  fireAge : Option ℤ
  isRetired : Bool
  bridgeGapAtFire : ℚ
  bridgeIncomeTotalAtFire : ℚ
  pensionCreditAtFire : ℚ
  debtCostAtFire : ℚ
  remainingDebts : List Financial.DebtPayment
  projections : List YearlyProjection

/-- Loop state before the first simulated year. -/
def calcInitState (inputs : FireInputs) : CalcState :=
  let portfolio := inputs.assets.investedAssets + inputs.assets.cashSavings
  { portfolio := portfolio
    portfolioOpt := portfolio
    portfolioPess := portfolio
    cumulativeContributions := portfolio
    cumulativeGrowth := 0
    salary := inputs.income.monthlyNetSalary
    additionalIncome := inputs.income.additionalMonthlyIncome
    livingExpenses := inputs.expenses.monthlyExpenses * 12
    retirementExpenses := 0
    fireAge := none
    isRetired := false
    bridgeGapAtFire := 0
    bridgeIncomeTotalAtFire := 0
    pensionCreditAtFire := 0
    debtCostAtFire := 0
    remainingDebts := inputs.assets.debts.map (fun d => ⟨d.monthlyPayment, d.remainingYears⟩)
    projections := [] }

/-- One iteration of `calculateFire`'s main loop (`for i = 0 … maxYears-1`):
debt tick, income/pension/one-time flows, then the accumulation branch with
its standard and bridge FIRE checks, or the drawdown branch; the year's
projection row is appended in both branches. -/
def calcStep (inputs : FireInputs) (startYear : ℤ) (i : ℕ) (st : CalcState) : CalcState :=
  let netReturn := netReturnOf inputs
  let inflation := inflationOf inputs
  let swr := swrOf inputs
  let postRetirementFactor := postRetirementFactorOf inputs
  let realReturn := realReturnOf inputs
  let baseAnnualExpenses := inputs.expenses.monthlyExpenses * 12
  let fireNumberBaseToday := baseAnnualExpenses * postRetirementFactor / swr
  let monthlyInvestment := inputs.fireGoals.monthlyInvestment
  let age := inputs.personalInfo.currentAge + (i : ℤ)
  let year := startYear + (i : ℤ)
  let annualDebtPayments :=
    ((st.remainingDebts.filter (fun d => 0 < d.yearsLeft)).map
      (fun d => d.monthlyPayment * 12)).sum
  let remainingDebts :=
    (st.remainingDebts.filter (fun d => 0 < d.yearsLeft)).map
      (fun d => ⟨d.monthlyPayment, d.yearsLeft - 1⟩)
  let totalAnnualIncome := (st.salary + st.additionalIncome) * 12
  let pensionIncome :=
    if inputs.income.pensionStartAge ≤ age then
      inputs.income.pensionMonthlyAmount * 12 * (1 + inflation) ^ (i : ℤ)
    else 0
  let oneTimeExpenses :=
    ((inputs.fireGoals.futureExpenses.filter (fun e => e.yearsFromNow = (i : ℤ))).map
      (·.amount)).sum
  let oneTimeIncomes :=
    ((inputs.fireGoals.futureIncomes.filter (fun e => e.yearsFromNow = (i : ℤ))).map
      (·.amount)).sum
  let netOneTime := oneTimeIncomes - oneTimeExpenses
  if st.isRetired then
    let totalRetirementSpend := st.retirementExpenses + annualDebtPayments
    let withdrawal := max 0 (totalRetirementSpend - pensionIncome)
    let growth := st.portfolio * netReturn
    let growthOpt := st.portfolioOpt * (netReturn + 1/50)
    let growthPess := st.portfolioPess * max 0 (netReturn - 1/50)
    let portfolio := st.portfolio + growth - withdrawal + netOneTime
    let portfolioOpt := st.portfolioOpt + growthOpt - withdrawal + netOneTime
    let portfolioPess := st.portfolioPess + growthPess - withdrawal + netOneTime
    let entry : YearlyProjection :=
      { year := year
        age := age
        portfolioValue := max 0 portfolio
        portfolioOptimistic := max 0 portfolioOpt
        portfolioPessimistic := max 0 portfolioPess
        annualContributions := 0
        annualInvestmentGrowth := growth
        annualExpenses := st.retirementExpenses + max 0 (-netOneTime)
        annualDebtPayments := annualDebtPayments
        passiveIncome := portfolio * swr
        totalIncome := pensionIncome
        cumulativeContributions := st.cumulativeContributions
        cumulativeGrowth := st.cumulativeGrowth + growth
        savingsRate := 0
        isRetired := true }
    { st with
      portfolio := portfolio
      portfolioOpt := portfolioOpt
      portfolioPess := portfolioPess
      cumulativeGrowth := st.cumulativeGrowth + growth
      retirementExpenses := st.retirementExpenses * (1 + inflation)
      remainingDebts := remainingDebts
      projections := st.projections ++ [entry] }
  else
    let annualContribution := monthlyInvestment * 12
    let growth := st.portfolio * netReturn
    let growthOpt := st.portfolioOpt * (netReturn + 1/50)
    let growthPess := st.portfolioPess * max 0 (netReturn - 1/50)
    let portfolio := st.portfolio + growth + annualContribution + netOneTime
    let portfolioOpt := st.portfolioOpt + growthOpt + annualContribution + netOneTime
    let portfolioPess := st.portfolioPess + growthPess + annualContribution + netOneTime
    let cumulativeContributions := st.cumulativeContributions + annualContribution
    let cumulativeGrowth := st.cumulativeGrowth + growth
    let entry : YearlyProjection :=
      { year := year
        age := age
        portfolioValue := max 0 portfolio
        portfolioOptimistic := max 0 portfolioOpt
        portfolioPessimistic := max 0 portfolioPess
        annualContributions := annualContribution
        annualInvestmentGrowth := growth
        annualExpenses := st.livingExpenses + max 0 (-netOneTime)
        annualDebtPayments := annualDebtPayments
        passiveIncome := portfolio * swr
        totalIncome := totalAnnualIncome + pensionIncome
        cumulativeContributions := cumulativeContributions
        cumulativeGrowth := cumulativeGrowth
        savingsRate :=
          if 0 < totalAnnualIncome then annualContribution / totalAnnualIncome * 100 else 0
        isRetired := false }
    let inflationMultiplier := (1 + inflation) ^ (i : ℤ)
    let retExpensesToday := baseAnnualExpenses * postRetirementFactor
    let pensionAnnualBase := inputs.income.pensionMonthlyAmount * 12
    let gapYears := max 0 (inputs.income.pensionStartAge - age)
    let reqToday := requiredPortfolio retExpensesToday pensionAnnualBase gapYears swr realReturn
    let debtPV :=
      ((remainingDebts.filter (fun d => 0 < d.yearsLeft)).map (fun d =>
        let ap := d.monthlyPayment * 12
        if 1/1000 < netReturn then ap * (1 - (1 + netReturn) ^ (-d.yearsLeft)) / netReturn
        else ap * d.yearsLeft)).sum
    let adjustedRequired := max 0 (reqToday * inflationMultiplier + debtPV)
    if adjustedRequired ≤ portfolio ∧ st.fireAge = none then
      { st with
        portfolio := portfolio
        portfolioOpt := portfolioOpt
        portfolioPess := portfolioPess
        cumulativeContributions := cumulativeContributions
        cumulativeGrowth := cumulativeGrowth
        remainingDebts := remainingDebts
        projections := st.projections ++ [entry]
        fireAge := some age
        isRetired := true
        pensionCreditAtFire := max 0 (fireNumberBaseToday - reqToday)
        debtCostAtFire := debtPV / inflationMultiplier
        retirementExpenses := st.livingExpenses * postRetirementFactor }
    else
      let bridgeIncomes :=
        inputs.fireGoals.futureIncomes.filter
          (fun e => e.includeInFire ∧ (i : ℤ) < e.yearsFromNow)
      let candidateRetExpenses := st.livingExpenses * postRetirementFactor
      if st.fireAge = none ∧ ¬bridgeIncomes.isEmpty ∧
          survivesDrawdown portfolio candidateRetExpenses inflation netReturn
            inputs.income.pensionMonthlyAmount inputs.income.pensionStartAge age (i : ℤ)
            inputs.personalInfo.lifeExpectancy
            (remainingDebts.filter (fun d => 0 < d.yearsLeft))
            ((inputs.fireGoals.futureIncomes.filter (fun e => (i : ℤ) < e.yearsFromNow)).map
              (fun e => ⟨e.amount, e.yearsFromNow⟩))
            ((inputs.fireGoals.futureExpenses.filter (fun e => (i : ℤ) < e.yearsFromNow)).map
              (fun e => ⟨e.amount, e.yearsFromNow⟩)) = true then
        { st with
          portfolio := portfolio
          portfolioOpt := portfolioOpt
          portfolioPess := portfolioPess
          cumulativeContributions := cumulativeContributions
          cumulativeGrowth := cumulativeGrowth
          remainingDebts := remainingDebts
          projections := st.projections ++ [entry]
          fireAge := some age
          isRetired := true
          bridgeGapAtFire := adjustedRequired - portfolio
          bridgeIncomeTotalAtFire := (bridgeIncomes.map (·.amount)).sum
          pensionCreditAtFire := max 0 (fireNumberBaseToday - reqToday)
          debtCostAtFire := debtPV / inflationMultiplier
          retirementExpenses := candidateRetExpenses }
      else
        { st with
          portfolio := portfolio
          portfolioOpt := portfolioOpt
          portfolioPess := portfolioPess
          cumulativeContributions := cumulativeContributions
          cumulativeGrowth := cumulativeGrowth
          remainingDebts := remainingDebts
          projections := st.projections ++ [entry]
          salary := st.salary * (1 + inputs.income.annualSalaryGrowth / 100)
          additionalIncome := st.additionalIncome * (1 + inflation)
          livingExpenses := st.livingExpenses * (1 + inflation) }

/-- The loop state after all `lifeExpectancy − currentAge + 1` simulated
years. -/
def calcFinalState (inputs : FireInputs) (startYear : ℤ) : CalcState :=
  (List.range
    (inputs.personalInfo.lifeExpectancy - inputs.personalInfo.currentAge + 1).toNat).foldl
    (fun st i => calcStep inputs startYear i st) (calcInitState inputs)

/-- `calculateFire` from `src/lib/calculator.ts`.  `startYear` renders the
source's `new Date().getFullYear()` (the clock is an explicit parameter of
the embedding). -/
def calculateFire (inputs : FireInputs) (startYear : ℤ) : FireResult :=
  let st := calcFinalState inputs startYear
  let lifeExpectancy := inputs.personalInfo.lifeExpectancy
  let currentAge := inputs.personalInfo.currentAge
  let swr := swrOf inputs
  let inflation := inflationOf inputs
  let netReturn := netReturnOf inputs
  let realReturn := realReturnOf inputs
  let postRetirementFactor := postRetirementFactorOf inputs
  let baseAnnualExpenses := inputs.expenses.monthlyExpenses * 12
  let fireNumberBaseToday := baseAnnualExpenses * postRetirementFactor / swr
  let totalMonthlyIncome :=
    inputs.income.monthlyNetSalary + inputs.income.additionalMonthlyIncome
  let monthlyInvestment := inputs.fireGoals.monthlyInvestment
  let currentSavingsRate :=
    if 0 < totalMonthlyIncome then monthlyInvestment / totalMonthlyIncome * 100 else 0
  let fireAge := st.fireAge.getD lifeExpectancy
  let yearsToFire := fireAge - currentAge
  let retExpTdy := baseAnnualExpenses * postRetirementFactor
  let pensAnnTdy := inputs.income.pensionMonthlyAmount * 12
  let fireGap := max 0 (inputs.income.pensionStartAge - fireAge)
  let adjustedFireNumberToday :=
    requiredPortfolio retExpTdy pensAnnTdy fireGap swr realReturn + st.debtCostAtFire
  let fireNumber := adjustedFireNumberToday * (1 + inflation) ^ yearsToFire
  let coastGapYears := max 0 (inputs.income.pensionStartAge - 65)
  let coastReqToday :=
    requiredPortfolio (baseAnnualExpenses * postRetirementFactor)
      (inputs.income.pensionMonthlyAmount * 12) coastGapYears swr realReturn
  let coastTarget := coastReqToday * (1 + inflation) ^ (65 - currentAge)
  let coastFireAge :=
    (((List.range (65 - currentAge + 1).toNat).find? (fun k =>
      let currentPortfolio := ((st.projections.get? k).map (·.portfolioValue)).getD 0
      coastTarget ≤ currentPortfolio * (1 + netReturn) ^ (65 - currentAge - (k : ℤ)))).map
      (fun k => currentAge + (k : ℤ))).getD currentAge
  let postRetirementMonthly := inputs.expenses.monthlyExpenses * postRetirementFactor
  let currentPassiveIncome := st.portfolio * swr / 12
  let baristaFireIncome := max 0 (postRetirementMonthly - currentPassiveIncome)
  let retirementProjection := st.projections.find? (fun p => p.age = fireAge)
  let at90 := st.projections.find? (fun p => p.age = lifeExpectancy)
  let retirementYears := lifeExpectancy - fireAge
  let retirementProjections := st.projections.filter (·.isRetired)
  let yearsWithPositivePortfolio :=
    (retirementProjections.filter (fun p => 0 < p.portfolioValue)).length
  let successRate :=
    if 0 < retirementProjections.length then
      (yearsWithPositivePortfolio : ℚ) / (retirementProjections.length : ℚ) * 100
    else 100
  { fireNumber := fireNumber
    fireNumberToday := adjustedFireNumberToday
    fireNumberBaseToday := fireNumberBaseToday
    fireAge := fireAge
    fireDateYear := startYear + yearsToFire
    yearsToFire := yearsToFire
    currentSavingsRate := currentSavingsRate
    monthlySavings := monthlyInvestment
    coastFireAge := coastFireAge
    baristaFireIncome := baristaFireIncome
    yearlyProjections := st.projections
    totalContributions := st.cumulativeContributions
    totalGrowth := st.cumulativeGrowth
    portfolioAtRetirement := (retirementProjection.map (·.portfolioValue)).getD 0
    portfolioAt90 := (at90.map (·.portfolioValue)).getD 0
    retirementYears := retirementYears
    successRate := successRate
    bridgeGap := st.bridgeGapAtFire
    bridgeIncomeTotal := st.bridgeIncomeTotalAtFire
    pensionCreditToday := st.pensionCreditAtFire
    debtCostToday := st.debtCostAtFire }

end Calculator

namespace MonteCarlo

/-- `geometricReturn` from `src/lib/constants.ts`: volatility drag,
`max(0, r − σ²/2)` with the percent↔fraction conversions of the source. -/
def geometricReturn (arithmeticReturn volatility : ℚ) : ℚ :=
  max 0 (arithmeticReturn / 100 - (volatility / 100) * (volatility / 100) / 2) * 100

/-- One step of the mulberry32 generator (`src/lib/monteCarlo.ts`): new
32-bit state and the raw 32-bit output whose value is `out / 2³²`.  JavaScript
two's-complement bit operations are rendered over naturals modulo `2³²`. -/
def mulberry32Step (s : ℕ) : ℕ × ℕ :=
  let s1 := (s + 0x6d2b79f5) % 4294967296
  let t1 := (s1 ^^^ (s1 >>> 15)) * (s1 ||| 1) % 4294967296
  let t2 := ((t1 + (t1 ^^^ (t1 >>> 7)) * (t1 ||| 61) % 4294967296) % 4294967296) ^^^ t1
  (s1, t2 ^^^ (t2 >>> 14))

/-- `hashSeed` from `src/lib/monteCarlo.ts`: fold the character codes with
`h = imul(31, h) + c` in 32-bit arithmetic. -/
def hashSeed (codes : List ℕ) : ℕ :=
  codes.foldl (fun h c => (31 * h % 4294967296 + c) % 4294967296) 0

/-- Mulberry32 state after `k` draws. -/
def streamState (s : ℕ) (k : ℕ) : ℕ := (fun t => (mulberry32Step t).1)^[k] s

/-- Raw output of the `(k+1)`-th draw from state `s`. -/
def streamOut (s : ℕ) (k : ℕ) : ℕ := (mulberry32Step (streamState s k)).2

/-- The `while (u === 0) u = rng()` loop of `createRandn`: state after, and
value of, the first nonzero draw.  The `else` fallback is only taken on the
(never observed) streams with no nonzero output, where the source would loop
forever; the model returns the next state and `0`. -/
noncomputable def drawNonzero (s : ℕ) : ℕ × ℕ :=
  letI : Decidable (∃ k : ℕ, streamOut s k ≠ 0) := Classical.dec _
  if h : ∃ k : ℕ, streamOut s k ≠ 0 then
    (streamState s (Nat.find h + 1), streamOut s (Nat.find h))
  else ((mulberry32Step s).1, 0)

/-- One call of the Box–Muller generator built by `createRandn`
(`src/lib/monteCarlo.ts`): consume two nonzero uniform draws `u, v ∈ (0,1)`
and return `√(−2 ln u) · cos(2π v)` with the advanced generator state. -/
noncomputable def randnDraw (s : ℕ) : ℕ × ℝ :=
  let du := drawNonzero s
  let dv := drawNonzero du.1
  let u : ℝ := (du.2 : ℝ) / 4294967296
  let v : ℝ := (dv.2 : ℝ) / 4294967296
  (dv.1, Real.sqrt (-2 * Real.log u) * Real.cos (2 * Real.pi * v))

/-- Flatten a rational into numeric codes (sign, numerator, denominator). -/
def encodeQ (q : ℚ) : List ℕ := [if q.num < 0 then 1 else 0, q.num.natAbs, q.den]

/-- Flatten an integer into numeric codes (sign, absolute value). -/
def encodeZ (z : ℤ) : List ℕ := [if z < 0 then 1 else 0, z.natAbs]

/-- Flatten a boolean into a numeric code. -/
def encodeB (b : Bool) : List ℕ := [if b then 1 else 0]

/-- Flatten an optional rational into numeric codes. -/
def encodeOptQ : Option ℚ → List ℕ
  | none => [2]
  | some q => 3 :: encodeQ q

/-- Stable flattening of the input aggregate into numeric codes, in field
declaration order.  This renders the source's `JSON.stringify(inputs)`: the
exact codes are immaterial to every claim (the seed only needs to be a pure
function of the aggregate); what the rendering preserves is that the
serialization is stable and depends on nothing but the field values. -/
def serializeInputs (inputs : FireInputs) : List ℕ :=
  encodeZ inputs.personalInfo.currentAge ++ encodeZ inputs.personalInfo.lifeExpectancy ++
  encodeQ inputs.income.monthlyNetSalary ++ encodeQ inputs.income.annualSalaryGrowth ++
  encodeQ inputs.income.additionalMonthlyIncome ++
  encodeQ inputs.income.pensionMonthlyAmount ++ encodeZ inputs.income.pensionStartAge ++
  (inputs.income.pensions.map (fun p => encodeQ p.monthlyAmount ++ encodeZ p.startAge)).flatten ++
  encodeQ inputs.expenses.monthlyExpenses ++ encodeQ inputs.expenses.annualInflationRate ++
  encodeQ inputs.expenses.postRetirementExpensePercent ++
  encodeQ inputs.assets.investedAssets ++ encodeQ inputs.assets.cashSavings ++
  encodeQ inputs.assets.otherAssets ++
  (inputs.assets.debts.map (fun d =>
    encodeQ d.monthlyPayment ++ encodeZ d.remainingYears ++ encodeOptQ d.interestRate)).flatten ++
  (inputs.assets.realEstateAssets.map (fun r =>
    encodeQ r.monthlyNetIncome ++ encodeOptQ r.rentalGrowthRate)).flatten ++
  encodeQ inputs.investmentStrategy.expectedAnnualReturn ++
  encodeOptQ inputs.investmentStrategy.annualVolatility ++
  encodeQ inputs.investmentStrategy.annualFees ++
  encodeQ inputs.investmentStrategy.capitalGainsTaxRate ++
  encodeQ inputs.fireGoals.safeWithdrawalRate ++ encodeQ inputs.fireGoals.monthlyInvestment ++
  (inputs.fireGoals.futureExpenses.map (fun e =>
    encodeQ e.amount ++ encodeZ e.yearsFromNow)).flatten ++
  (inputs.fireGoals.futureIncomes.map (fun e =>
    encodeQ e.amount ++ encodeZ e.yearsFromNow ++ encodeB e.includeInFire)).flatten ++
  (inputs.fireGoals.recurringIncomes.map (fun e =>
    encodeQ e.monthlyAmount ++ encodeZ e.startAge ++ encodeQ e.annualGrowthRate ++
      encodeB e.includeInFire)).flatten

/-- The seed string `JSON.stringify(inputs) + (targetFireAge ?? '')`,
flattened: a missing target age appends nothing. -/
def seedCodes (inputs : FireInputs) (targetFireAge : Option ℤ) : List ℕ :=
  serializeInputs inputs ++ (match targetFireAge with | none => [] | some t => encodeZ t)

/-- The arithmetic-mean net return of the Monte Carlo engine:
`grossReturn − annualFees` (fractions).  Unlike the deterministic engine's
`Calculator.netReturnOf`, the fee rate enters here. -/
def mcArithmeticNet (inputs : FireInputs) : ℚ :=
  inputs.investmentStrategy.expectedAnnualReturn / 100 -
    inputs.investmentStrategy.annualFees / 100

/-- Volatility as a fraction, defaulting to 12 %. -/
def mcVolatility (inputs : FireInputs) : ℚ :=
  (inputs.investmentStrategy.annualVolatility.getD 12) / 100

/-- Geometric (volatility-dragged) net return used for the deterministic
FIRE checks inside the simulation. -/
def mcGeoNet (inputs : FireInputs) : ℚ :=
  geometricReturn (mcArithmeticNet inputs * 100)
    (inputs.investmentStrategy.annualVolatility.getD 12) / 100

/-- Real return for the Monte Carlo engine's sufficiency arithmetic. -/
def mcRealReturn (inputs : FireInputs) : ℚ :=
  max (1/1000) ((1 + mcGeoNet inputs) / (1 + Calculator.inflationOf inputs) - 1)

/-- Pension entries built once per run (`income.pensions`, positive amounts,
monthly → annual). -/
def mcPensionEntries (inputs : FireInputs) : List Financial.PensionEntry :=
  (inputs.income.pensions.filter (fun p => 0 < p.monthlyAmount)).map
    (fun p => ⟨p.monthlyAmount * 12, p.startAge⟩)

/-- Recurring-income entries built once per run: explicit recurring incomes
plus real-estate holdings rendered as recurring income from the current age. -/
def mcRecurringEntries (inputs : FireInputs) : List Financial.RecurringIncomeEntry :=
  (inputs.fireGoals.recurringIncomes.filter (fun e => 0 < e.monthlyAmount)).map
    (fun e => ⟨e.monthlyAmount * 12, e.startAge, e.annualGrowthRate / 100, e.includeInFire⟩) ++
  (inputs.assets.realEstateAssets.filter (fun r => 0 < r.monthlyNetIncome)).map
    (fun r => ⟨r.monthlyNetIncome * 12, inputs.personalInfo.currentAge,
      (r.rentalGrowthRate.getD inputs.expenses.annualInflationRate) / 100, true⟩)

/-- Real-portfolio rendering of `Financial.survivesDrawdown`, as invoked by
the Monte Carlo bridge check on a randomly-evolved portfolio.  Modelled from
the spec: the engine passes two further arguments (`capitalGainsTax`,
`costBasisRatio`) to an extended variant of the financial module that is not
part of the available sources; spec §4.1 defines the drawdown predicate
without them, so this model applies the specified predicate. -/
noncomputable def survivesDrawdownR (startPortfolio : ℝ)
    (retExpenses inflation netReturn : ℚ) (pensions : List Financial.PensionEntry)
    (fireAge fireYearIdx lifeExpectancy : ℤ) (debts : List Financial.DebtPayment)
    (futureIncomes futureExpenses : List Financial.OneTimeEvent)
    (recurringIncomes : List Financial.RecurringIncomeEntry) : Bool :=
  ((List.range (lifeExpectancy - fireAge + 1).toNat).foldl
    (fun st y =>
      match st with
      | none => none
      | some s =>
        let age := fireAge + y
        let absYear := fireYearIdx + y
        let pensionIncome : ℚ :=
          ((pensions.filter (fun pen => pen.startAge ≤ age)).map
            (fun pen => pen.annualAmount / 12 * 12 * (1 + inflation) ^ absYear)).sum
        let recurringIncome : ℚ :=
          ((recurringIncomes.filter (fun inc => inc.startAge ≤ age)).map
            (fun inc => inc.annualAmount * (1 + inc.annualGrowthRate) ^ absYear)).sum
        let debtPay : ℚ :=
          ((debts.filter (fun d => (y : ℤ) < d.yearsLeft)).map
            (fun d => d.monthlyPayment * 12)).sum
        let oneTime : ℚ :=
          ((futureIncomes.filter (fun e => e.yearsFromNow = absYear)).map (·.amount)).sum -
          ((futureExpenses.filter (fun e => e.yearsFromNow = absYear)).map (·.amount)).sum
        let totalSpend : ℚ := s.2 + debtPay
        let withdrawal : ℚ := max 0 (totalSpend - pensionIncome - recurringIncome)
        let p' : ℝ := s.1 + s.1 * (netReturn : ℝ) - (withdrawal : ℝ) + (oneTime : ℝ)
        if p' < 0 then none else some (p', s.2 * (1 + inflation)))
    (some (startPortfolio, retExpenses))).isSome

/-- Per-path mutable state of one Monte Carlo simulation; `rng` is the
mulberry32 state, which threads through paths (one shared generator for the
whole run).  The expense/investment trackers stay rational: the source only
ever multiplies them by rational factors. -/
structure MCSimState where
  rng : ℕ
  portfolio : ℝ
  costBasis : ℝ
  livingExpenses : ℚ
  currentMonthlyInvestment : ℚ
  retirementExpenses : ℚ
  isRetired : Bool
  fireAge : Option ℤ
  remainingDebts : List Financial.DebtPayment
  path : List ℝ

/-- Fresh per-path state (the debts are re-cloned per simulation; the clone
keeps only `monthlyPayment` and `yearsLeft`, exactly as the source's
object literal does). -/
noncomputable def mcInitSimState (inputs : FireInputs) (rng : ℕ) : MCSimState :=
  { rng := rng
    portfolio := ((inputs.assets.investedAssets + inputs.assets.cashSavings +
      inputs.assets.otherAssets : ℚ) : ℝ)
    costBasis := ((inputs.assets.investedAssets + inputs.assets.cashSavings +
      inputs.assets.otherAssets : ℚ) : ℝ)
    livingExpenses := inputs.expenses.monthlyExpenses * 12
    currentMonthlyInvestment := inputs.fireGoals.monthlyInvestment
    retirementExpenses := 0
    isRetired := false
    fireAge := none
    remainingDebts := inputs.assets.debts.map (fun d => ⟨d.monthlyPayment, d.remainingYears⟩)
    path := [] }

/-- One simulated year of one Monte Carlo path (`src/lib/monteCarlo.ts` main
loop): draw the year's log-normal return, tick debts, accrue pensions and
recurring incomes, then either the accumulation branch — with forced
retirement at `targetFireAge` when supplied, or the standard/bridge
sufficiency checks (on the deterministic geometric return) otherwise — or the
drawdown branch with its capital-gains gross-up.  The debt rate of the PV
leg is the constant `0.03`: the per-simulation debt clone drops
`interestRate`, so the source's `(d as any).interestRate` read is always
undefined. -/
noncomputable def mcYearStep (inputs : FireInputs) (targetFireAge : Option ℤ)
    (i : ℕ) (st : MCSimState) : MCSimState :=
  let arithmeticNet := mcArithmeticNet inputs
  let volatility := mcVolatility inputs
  let geoNet := mcGeoNet inputs
  let inflation := Calculator.inflationOf inputs
  let swr := Calculator.swrOf inputs
  let realReturn := mcRealReturn inputs
  let postRetirementFactor := Calculator.postRetirementFactorOf inputs
  let baseAnnualExpenses := inputs.expenses.monthlyExpenses * 12
  let capitalGainsTax := inputs.investmentStrategy.capitalGainsTaxRate / 100
  let pensionEntries := mcPensionEntries inputs
  let recurringEntries := mcRecurringEntries inputs
  let age := inputs.personalInfo.currentAge + (i : ℤ)
  let draw := randnDraw st.rng
  let rng1 := draw.1
  let mu : ℝ := Real.log (1 + (arithmeticNet : ℝ)) - (volatility : ℝ) ^ 2 / 2
  let randomReturn : ℝ := Real.exp (mu + (volatility : ℝ) * draw.2) - 1
  let annualDebtPayments : ℚ :=
    ((st.remainingDebts.filter (fun d => 0 < d.yearsLeft)).map
      (fun d => d.monthlyPayment * 12)).sum
  let remainingDebts :=
    (st.remainingDebts.filter (fun d => 0 < d.yearsLeft)).map
      (fun d => ⟨d.monthlyPayment, d.yearsLeft - 1⟩)
  let pensionIncome : ℚ :=
    ((pensionEntries.filter (fun pen => pen.startAge ≤ age)).map
      (fun pen => pen.annualAmount * (1 + inflation) ^ (i : ℤ))).sum
  let recurringIncome : ℚ :=
    ((recurringEntries.filter (fun inc => inc.startAge ≤ age)).map
      (fun inc => inc.annualAmount * (1 + inc.annualGrowthRate) ^ (i : ℤ))).sum
  let oneTimeExpenses : ℚ :=
    ((inputs.fireGoals.futureExpenses.filter (fun e => e.yearsFromNow = (i : ℤ))).map
      (·.amount)).sum
  let oneTimeIncomes : ℚ :=
    ((inputs.fireGoals.futureIncomes.filter (fun e => e.yearsFromNow = (i : ℤ))).map
      (·.amount)).sum
  let netOneTime : ℚ := oneTimeIncomes - oneTimeExpenses
  if st.isRetired then
    let totalSpend : ℚ := st.retirementExpenses + annualDebtPayments
    let netWithdrawal : ℚ := max 0 (totalSpend - pensionIncome - recurringIncome)
    let growth : ℝ := st.portfolio * randomReturn
    let portfolioBeforeWithdrawal : ℝ := st.portfolio + growth
    let grossWithdrawal : ℝ :=
      if 0 < netWithdrawal ∧ st.costBasis < portfolioBeforeWithdrawal then
        (netWithdrawal : ℝ) /
          (1 - (portfolioBeforeWithdrawal - st.costBasis) / portfolioBeforeWithdrawal *
            (capitalGainsTax : ℝ))
      else (netWithdrawal : ℝ)
    let portfolio : ℝ := max 0 (st.portfolio + growth - grossWithdrawal + (netOneTime : ℝ))
    let costBasis1 : ℝ :=
      if 0 < grossWithdrawal ∧ 0 < portfolioBeforeWithdrawal then
        st.costBasis - grossWithdrawal * (st.costBasis / portfolioBeforeWithdrawal)
      else st.costBasis
    let costBasis2 : ℝ :=
      if 0 < netOneTime then costBasis1 + (netOneTime : ℝ)
      else if netOneTime < 0 then
        (if 0 < portfolio then costBasis1 - (-netOneTime : ℚ) * (costBasis1 / portfolio)
         else costBasis1)
      else costBasis1
    { st with
      rng := rng1
      portfolio := portfolio
      costBasis := costBasis2
      retirementExpenses := st.retirementExpenses * (1 + inflation)
      remainingDebts := remainingDebts
      path := st.path ++ [portfolio] }
  else
    let annualContribution : ℚ := st.currentMonthlyInvestment * 12
    let growth : ℝ := st.portfolio * randomReturn
    let portfolio : ℝ :=
      max 0 (st.portfolio + growth + (annualContribution : ℝ) + (netOneTime : ℝ))
    let costBasis : ℝ :=
      if 0 < netOneTime then st.costBasis + (annualContribution : ℝ) + (netOneTime : ℝ)
      else
        let cb1 := st.costBasis + (annualContribution : ℝ)
        if 0 < portfolio then cb1 - ((-netOneTime : ℚ) : ℝ) * (cb1 / portfolio) else cb1
    let inflationMultiplier : ℚ := (1 + inflation) ^ (i : ℤ)
    let retExpensesToday : ℚ := baseAnnualExpenses * postRetirementFactor
    let reqToday : ℚ :=
      Financial.requiredPortfolio retExpensesToday pensionEntries age swr realReturn
        (some inputs.personalInfo.lifeExpectancy) inflation
        (recurringEntries.filter (fun inc => inc.startAge ≤ age || inc.includeInFire))
    let debtPV : ℚ :=
      ((remainingDebts.filter (fun d => 0 < d.yearsLeft)).map (fun d =>
        let ap := d.monthlyPayment * 12
        (ap * (1 - (1 + (3/100 : ℚ)) ^ (-d.yearsLeft)) / (3/100) : ℚ))).sum
    let adjustedRequired : ℚ := max 0 (reqToday * inflationMultiplier + debtPV)
    let continueState : MCSimState :=
      { st with
        rng := rng1
        portfolio := portfolio
        costBasis := costBasis
        remainingDebts := remainingDebts
        livingExpenses := st.livingExpenses * (1 + inflation)
        currentMonthlyInvestment :=
          st.currentMonthlyInvestment * (1 + inputs.income.annualSalaryGrowth / 100)
        path := st.path ++ [portfolio] }
    let retireState : MCSimState :=
      { st with
        rng := rng1
        portfolio := portfolio
        costBasis := costBasis
        remainingDebts := remainingDebts
        fireAge := some age
        isRetired := true
        retirementExpenses := st.livingExpenses * postRetirementFactor
        path := st.path ++ [portfolio] }
    match targetFireAge with
    | some t =>
      if t ≤ age ∧ st.fireAge = none then retireState else continueState
    | none =>
      if (adjustedRequired : ℝ) ≤ portfolio ∧ st.fireAge = none then retireState
      else
        let bridgeIncomes :=
          inputs.fireGoals.futureIncomes.filter
            (fun e => e.includeInFire ∧ (i : ℤ) < e.yearsFromNow)
        let bridgeRecurring :=
          recurringEntries.filter (fun inc => inc.includeInFire ∧ age < inc.startAge)
        if st.fireAge = none ∧ (¬bridgeIncomes.isEmpty ∨ ¬bridgeRecurring.isEmpty) ∧
            survivesDrawdownR portfolio (st.livingExpenses * postRetirementFactor)
              inflation geoNet pensionEntries age (i : ℤ)
              inputs.personalInfo.lifeExpectancy
              (remainingDebts.filter (fun d => 0 < d.yearsLeft))
              ((inputs.fireGoals.futureIncomes.filter (fun e => (i : ℤ) < e.yearsFromNow)).map
                (fun e => ⟨e.amount, e.yearsFromNow⟩))
              ((inputs.fireGoals.futureExpenses.filter (fun e => (i : ℤ) < e.yearsFromNow)).map
                (fun e => ⟨e.amount, e.yearsFromNow⟩))
              recurringEntries = true then
          retireState
        else continueState

/-- One full Monte Carlo path: fold the year step over the horizon. -/
noncomputable def mcRunSim (inputs : FireInputs) (targetFireAge : Option ℤ)
    (rng : ℕ) : MCSimState :=
  (List.range
    (inputs.personalInfo.lifeExpectancy - inputs.personalInfo.currentAge + 1).toNat).foldl
    (fun st i => mcYearStep inputs targetFireAge i st) (mcInitSimState inputs rng)

/-- Accumulator of the outer simulation loop: generator state threading
across paths, the collected paths, and each path's recorded fire age. -/
structure MCRunAcc where
  rng : ℕ
  allPaths : List (List ℝ)
  fireAges : List ℤ

/-- The outer loop over `numSimulations` paths; a path that never fires
records `lifeExpectancy` (`fireAge ?? personalInfo.lifeExpectancy`). -/
noncomputable def mcRunAll (inputs : FireInputs) (numSimulations : ℕ)
    (targetFireAge : Option ℤ) : MCRunAcc :=
  (List.range numSimulations).foldl
    (fun acc _ =>
      let st := mcRunSim inputs targetFireAge acc.rng
      { rng := st.rng
        allPaths := acc.allPaths ++ [st.path]
        fireAges := acc.fireAges ++ [st.fireAge.getD inputs.personalInfo.lifeExpectancy] })
    { rng := hashSeed (seedCodes inputs targetFireAge), allPaths := [], fireAges := [] }

/-- The recorded fire ages of a run, one per path. -/
noncomputable def mcFireAges (inputs : FireInputs) (numSimulations : ℕ)
    (targetFireAge : Option ℤ) : List ℤ :=
  (mcRunAll inputs numSimulations targetFireAge).fireAges

/-- `MonteCarloResult` from `src/lib/monteCarlo.ts` (p10/p25/p50/p75/p90
percentile bands). -/
structure MonteCarloResult where
  p10 : List ℝ
  p25 : List ℝ
  p50 : List ℝ
  p75 : List ℝ
  p90 : List ℝ
  ages : List ℤ
  successRate : ℚ
  fireAgeDistribution : List (ℤ × ℕ)
  medianFireAge : ℤ
  numSimulations : ℕ

/-- `values[Math.floor(numSimulations × pct)] ?? 0`. -/
noncomputable def percentileAt (values : List ℝ) (numSimulations : ℕ) (pct : ℚ) : ℝ :=
  values.getD (⌊(numSimulations : ℚ) * pct⌋).toNat 0

/-- `runMonteCarlo` from `src/lib/monteCarlo.ts`: seed the generator from the
serialized inputs plus target age, run `numSimulations` paths (the source's
default count is 500), and aggregate percentile bands, success rate,
fire-age histogram and median fire age. -/
noncomputable def runMonteCarlo (inputs : FireInputs) (numSimulations : ℕ)
    (targetFireAge : Option ℤ) : MonteCarloResult :=
  let run := mcRunAll inputs numSimulations targetFireAge
  let maxYears := (inputs.personalInfo.lifeExpectancy -
    inputs.personalInfo.currentAge + 1).toNat
  let sortedAt : ℕ → List ℝ := fun i =>
    (run.allPaths.map (fun path => path.getD i 0)).insertionSort (· ≤ ·)
  let finalValues : List ℝ := run.allPaths.map (fun path => path.getD (maxYears - 1) 0)
  let sortedFireAges := run.fireAges.insertionSort (· ≤ ·)
  { p10 := (List.range maxYears).map (fun i => percentileAt (sortedAt i) numSimulations (10/100))
    p25 := (List.range maxYears).map (fun i => percentileAt (sortedAt i) numSimulations (25/100))
    p50 := (List.range maxYears).map (fun i => percentileAt (sortedAt i) numSimulations (50/100))
    p75 := (List.range maxYears).map (fun i => percentileAt (sortedAt i) numSimulations (75/100))
    p90 := (List.range maxYears).map (fun i => percentileAt (sortedAt i) numSimulations (90/100))
    ages := (List.range maxYears).map (fun i => inputs.personalInfo.currentAge + (i : ℤ))
    successRate :=
      (((finalValues.filter (fun v => 0 < v)).length : ℚ) / (numSimulations : ℚ)) * 100
    fireAgeDistribution :=
      (run.fireAges.dedup.map (fun a => (a, run.fireAges.count a))).insertionSort
        (fun x y => x.1 ≤ y.1)
    medianFireAge := sortedFireAges.getD (numSimulations / 2) inputs.personalInfo.currentAge
    numSimulations := numSimulations }

end MonteCarlo

/-- A minimal concrete input aggregate used to exercise the engines on a
three-year horizon: no assets, no contributions, no pensions, positive
expenses — a run on which FIRE is never reached. -/
def probeInputs : FireInputs :=
  { personalInfo := ⟨30, 32⟩
    income :=
      { monthlyNetSalary := 0
        annualSalaryGrowth := 0
        additionalMonthlyIncome := 0
        pensionMonthlyAmount := 0
        pensionStartAge := 67
        pensions := [] }
    expenses :=
      { monthlyExpenses := 1000
        annualInflationRate := 0
        postRetirementExpensePercent := 100 }
    assets :=
      { investedAssets := 0
        cashSavings := 0
        otherAssets := 0
        debts := []
        realEstateAssets := [] }
    investmentStrategy :=
      { expectedAnnualReturn := 5
        annualVolatility := none
        annualFees := 0
        capitalGainsTaxRate := 0 }
    fireGoals :=
      { safeWithdrawalRate := 4
        monthlyInvestment := 0
        futureExpenses := []
        futureIncomes := []
        recurringIncomes := [] } }

instance : Inhabited YearlyProjection :=
  ⟨{ year := 0, age := 0, portfolioValue := 0, portfolioOptimistic := 0,
     portfolioPessimistic := 0, annualContributions := 0, annualInvestmentGrowth := 0,
     annualExpenses := 0, annualDebtPayments := 0, passiveIncome := 0, totalIncome := 0,
     cumulativeContributions := 0, cumulativeGrowth := 0, savingsRate := 0,
     isRetired := false }⟩

/-!
## Supporting lemmas
-/

namespace Financial

/-- `annuityPVQ` agrees with the real-valued `annuityPV` at integer payment
counts, certifying that the rational rendering used by the solvers is the
same function. -/
theorem annuityPVQ_cast (n : ℤ) (r : ℚ) :
    ((annuityPVQ n r : ℚ) : ℝ) = annuityPV ((n : ℤ) : ℝ) ((r : ℚ) : ℝ) := by
  have hn : ((n : ℝ) ≤ 0) ↔ (n ≤ 0) := by exact_mod_cast Iff.rfl
  have hq : ((r : ℝ) < 0.0001) ↔ (r < 1/10000) := by
    rw [show (0.0001 : ℝ) = ((1/10000 : ℚ) : ℝ) by norm_num]
    exact_mod_cast Iff.rfl
  unfold annuityPVQ annuityPV
  by_cases h1 : n ≤ 0
  · rw [if_pos h1, if_pos (hn.mpr h1)]
    norm_num
  · rw [if_neg h1, if_neg (fun hc => h1 (hn.mp hc))]
    by_cases h2 : r < 1/10000
    · rw [if_pos h2, if_pos (hq.mpr h2)]
      push_cast
      ring
    · rw [if_neg h2, if_neg (fun hc => h2 (hq.mp hc))]
      have hcast : (-(n : ℝ)) = ((-n : ℤ) : ℝ) := by push_cast; ring
      rw [hcast, Real.rpow_intCast]
      push_cast
      ring

/-- `annuityPVQ` is nonnegative: the low-rate branch returns the positive
`n`, and in the main branch numerator and denominator are both positive. -/
theorem annuityPVQ_nonneg (n : ℤ) (r : ℚ) : 0 ≤ annuityPVQ n r := by
  unfold annuityPVQ
  by_cases h1 : n ≤ 0
  · simp [h1]
  · rw [if_neg h1]
    push_neg at h1
    by_cases h2 : r < 1/10000
    · rw [if_pos h2]
      exact_mod_cast h1.le
    · rw [if_neg h2]
      push_neg at h2
      have hrpos : (0:ℚ) < r := lt_of_lt_of_le (by norm_num) h2
      have hbase : (1:ℚ) < 1 + r := by linarith
      have hpow : (1 + r) ^ (-n) < 1 :=
        zpow_lt_one_of_neg₀ hbase (by omega : -n < 0)
      have h3 : (0:ℚ) ≤ 1 - (1 + r) ^ (-n) := by linarith
      positivity

end Financial

/-!
## Claim theorems
-/

/-- **C4.** `annuityPV` contract: for all real `n` and `r` the function is
total and returns `0` when `n ≤ 0`, returns `n` when (n is positive and)
`r` is below the epsilon `1e-4`, and otherwise returns
`(1 − (1+r)^(−n)) / r`; moreover `annuityPV(10, 0.05)` is within `1e-3` of
`7.7217` and `annuityPV(5, 0.20)` is within `1e-3` of `2.9906`. -/
theorem annuityPV_contract :
    (∀ n r : ℝ, n ≤ 0 → Financial.annuityPV n r = 0) ∧
    (∀ n r : ℝ, 0 < n → r < 0.0001 → Financial.annuityPV n r = n) ∧
    (∀ n r : ℝ, 0 < n → 0.0001 ≤ r → Financial.annuityPV n r = (1 - (1 + r) ^ (-n)) / r) ∧
    |Financial.annuityPV 10 0.05 - 7.7217| < 1/1000 ∧
    |Financial.annuityPV 5 0.2 - 2.9906| < 1/1000 := by
  have hb1 : ∀ n r : ℝ, n ≤ 0 → Financial.annuityPV n r = 0 := by
    intro n r h
    unfold Financial.annuityPV
    rw [if_pos h]
  have hb2 : ∀ n r : ℝ, 0 < n → r < 0.0001 → Financial.annuityPV n r = n := by
    intro n r h1 h2
    unfold Financial.annuityPV
    rw [if_neg (not_le.mpr h1), if_pos h2]
  have hb3 : ∀ n r : ℝ, 0 < n → 0.0001 ≤ r →
      Financial.annuityPV n r = (1 - (1 + r) ^ (-n)) / r := by
    intro n r h1 h2
    unfold Financial.annuityPV
    rw [if_neg (not_le.mpr h1), if_neg (not_lt.mpr h2)]
  refine ⟨hb1, hb2, hb3, ?_, ?_⟩
  · rw [hb3 10 0.05 (by norm_num) (by norm_num)]
    rw [show (-(10:ℝ)) = ((-10 : ℤ) : ℝ) by norm_num, Real.rpow_intCast]
    rw [abs_lt]
    constructor <;> norm_num
  · rw [hb3 5 0.2 (by norm_num) (by norm_num)]
    rw [show (-(5:ℝ)) = ((-5 : ℤ) : ℝ) by norm_num, Real.rpow_intCast]
    rw [abs_lt]
    constructor <;> norm_num

/-- Witness for C4: the three contract branches applied at the concrete
inputs of the spec's examples. -/
theorem annuityPV_contract_check :
    Financial.annuityPV (-3) 0.05 = 0 ∧
    Financial.annuityPV 10 0.00001 = 10 ∧
    Financial.annuityPV 10 0.05 = (1 - (1 + 0.05) ^ (-(10:ℝ))) / 0.05 :=
  ⟨annuityPV_contract.1 (-3) 0.05 (by norm_num),
   annuityPV_contract.2.1 10 0.00001 (by norm_num) (by norm_num),
   annuityPV_contract.2.2.1 10 0.05 (by norm_num) (by norm_num)⟩

/-- **C6.** Bridge income rescues survival: the drawdown from a 400 000
portfolio at 30 000 expenses (2 % inflation, 5 % net return, ages 50→90,
no pensions or debts) fails, and succeeds once a 1 000 000 income scheduled
3 years out is added. -/
theorem survivesDrawdown_bridge_rescue :
    Financial.survivesDrawdown 400000 30000 (1/50) (1/20) [] 50 0 90 [] [] [] = false ∧
    Financial.survivesDrawdown 400000 30000 (1/50) (1/20) [] 50 0 90 []
      [⟨1000000, 3⟩] [] = true := by
  constructor
  · simp [Financial.survivesDrawdown, List.range_succ]
    norm_num
  · simp [Financial.survivesDrawdown, List.range_succ]
    norm_num


namespace Financial

/-- The closed-form solver at a single positive pension starting after the
fire age reduces to one gap segment: fund full expenses over the gap as an
annuity plus the discounted post-pension perpetuity. -/
theorem requiredPortfolioClosed_single (E P swr r : ℚ) (fireAge s : ℤ)
    (hE : 0 ≤ E) (hP : 0 < P) (hs : fireAge < s) :
    requiredPortfolioClosed E [⟨P, s⟩] fireAge swr r =
      E * annuityPVQ (s - fireAge) r + (max 0 (E - P) / swr) / (1 + r) ^ (s - fireAge) := by
  have hns : ¬ s ≤ fireAge := not_le.mpr hs
  simp [requiredPortfolioClosed, segmentStep, activePensionAt, List.insertionSort,
    List.orderedInsert, hP, hs, hns, List.dedup_cons_of_not_mem, max_eq_right hE]

/-- In the main branch of `annuityPVQ` (positive duration, rate at least the
epsilon) the annuity formula applies. -/
theorem annuityPVQ_main (g : ℤ) (r : ℚ) (hg : 0 < g) (hr : 1/10000 ≤ r) :
    annuityPVQ g r = (1 - (1 + r) ^ (-g)) / r := by
  unfold annuityPVQ
  rw [if_neg (by omega), if_neg (not_lt.mpr hr)]

/-- In the degenerate branch of `annuityPVQ` (positive duration, rate below
the epsilon) the annuity is the plain year count. -/
theorem annuityPVQ_low (g : ℤ) (r : ℚ) (hg : 0 < g) (hr : r < 1/10000) :
    annuityPVQ g r = (g : ℚ) := by
  unfold annuityPVQ
  rw [if_neg (by omega), if_pos hr]

/-- Bernoulli-style bound: `(1 − r·n)·(1 + r)^n ≤ 1` for nonnegative rates. -/
theorem bernoulli_inv_bound (r : ℚ) (hr : 0 ≤ r) (n : ℕ) :
    (1 - r * (n : ℚ)) * (1 + r) ^ n ≤ 1 := by
  induction n with
  | zero => norm_num
  | succ n ih =>
    have hpow : (0:ℚ) ≤ (1 + r) ^ n := by positivity
    have hexp : (1 + r) ^ (n + 1) = (1 + r) ^ n * (1 + r) := pow_succ _ _
    rw [hexp]
    push_cast
    nlinarith [mul_nonneg (mul_nonneg (mul_nonneg hr hr) (by positivity : (0:ℚ) ≤ (n : ℚ) + 1))
      hpow]

/-- A discount factor over `d` years drops below 1 by at most `r·d`. -/
theorem one_sub_zpow_neg_le (r : ℚ) (hr : 0 < r) (d : ℤ) (hd : 0 < d) :
    1 - (1 + r) ^ (-d) ≤ r * (d : ℚ) := by
  have hq0 : (0:ℚ) < 1 + r := by linarith
  have hnat : d = (d.toNat : ℤ) := (Int.toNat_of_nonneg hd.le).symm
  rw [zpow_neg, hnat, zpow_natCast]
  have hb := bernoulli_inv_bound r hr.le d.toNat
  have hpow : (0:ℚ) < (1 + r) ^ d.toNat := pow_pos hq0 _
  have hcast : ((d.toNat : ℤ) : ℚ) = (d.toNat : ℚ) := by push_cast; rfl
  rw [hcast, ← mul_le_mul_right hpow]
  have hx : ((1 + r) ^ d.toNat)⁻¹ * (1 + r) ^ d.toNat = 1 :=
    inv_mul_cancel₀ (ne_of_gt hpow)
  nlinarith [hb]

end Financial

/-- **C2 (amended).** Gap-year monotonicity of the closed-form solver holds
under one hypothesis beyond the claim's own `expenses > 0`, `pension > 0`,
`swr > 0` and `realReturn > 0`: the post-pension perpetuity
`max(0, E − P)/swr` is strictly smaller than the full perpetuity
`E/realReturn` — the condition the counterexample violates.  Under it, for a
single positive pension the required portfolio strictly increases as the
pension start age moves further past `fireAge`, in both branches of the
annuity epsilon test. -/
theorem requiredPortfolio_gap_year_monotonicity
    (E P swr r : ℚ) (fireAge s1 s2 : ℤ)
    (hE : 0 < E) (hP : 0 < P) (hswr : 0 < swr)
    (hr : 0 < r)
    (hS : max 0 (E - P) / swr < E / r)
    (hs1 : fireAge < s1) (hs12 : s1 < s2) :
    Financial.requiredPortfolio E [⟨P, s1⟩] fireAge swr r none 0 [] <
    Financial.requiredPortfolio E [⟨P, s2⟩] fireAge swr r none 0 [] := by
  have hq1 : (1:ℚ) < 1 + r := by linarith
  have hq0 : (0:ℚ) < 1 + r := by linarith
  have hs2 : fireAge < s2 := lt_trans hs1 hs12
  show Financial.requiredPortfolioClosed E [⟨P, s1⟩] fireAge swr r <
    Financial.requiredPortfolioClosed E [⟨P, s2⟩] fireAge swr r
  rw [Financial.requiredPortfolioClosed_single E P swr r fireAge s1 hE.le hP hs1,
    Financial.requiredPortfolioClosed_single E P swr r fireAge s2 hE.le hP hs2]
  set S := max 0 (E - P) / swr with hSdef
  have hS0 : (0:ℚ) ≤ S := div_nonneg (le_max_left _ _) hswr.le
  by_cases hreps : r < 1/10000
  · rw [Financial.annuityPVQ_low (s1 - fireAge) r (by omega) hreps,
      Financial.annuityPVQ_low (s2 - fireAge) r (by omega) hreps]
    set g1 := s1 - fireAge with hg1def
    set g2 := s2 - fireAge with hg2def
    have hg1 : (0:ℤ) < g1 := by omega
    have hg2 : (0:ℤ) < g2 := by omega
    have hd : (0:ℤ) < g2 - g1 := by omega
    rw [div_eq_mul_inv S, div_eq_mul_inv S, ← zpow_neg, ← zpow_neg]
    set a := (1 + r) ^ (-g1) with hadef
    set b := (1 + r) ^ (-(g2 - g1)) with hbdef
    have ha0 : (0:ℚ) < a := zpow_pos hq0 _
    have ha1 : a < 1 := zpow_lt_one_of_neg₀ hq1 (by omega)
    have hb0 : (0:ℚ) < b := zpow_pos hq0 _
    have hb1 : b < 1 := zpow_lt_one_of_neg₀ hq1 (by omega)
    have hsplit : (1 + r) ^ (-g2) = a * b := by
      rw [hadef, hbdef, ← zpow_add₀ (ne_of_gt hq0)]
      ring_nf
    have hbound : 1 - b ≤ r * ((g2 - g1 : ℤ) : ℚ) :=
      Financial.one_sub_zpow_neg_le r hr _ hd
    rw [hsplit]
    have hcast : ((g2 - g1 : ℤ) : ℚ) = (g2 : ℚ) - (g1 : ℚ) := by push_cast; ring
    rw [hcast] at hbound
    have step1 : S * a * (1 - b) ≤ S * (1 - b) :=
      mul_le_mul_of_nonneg_right (mul_le_of_le_one_right hS0 ha1.le) (by linarith)
    have step2 : S * (1 - b) < (E / r) * (1 - b) :=
      mul_lt_mul_of_pos_right hS (by linarith)
    have step3 : (E / r) * (1 - b) ≤ (E / r) * (r * ((g2 : ℚ) - (g1 : ℚ))) :=
      mul_le_mul_of_nonneg_left hbound (div_nonneg hE.le hr.le)
    have step4 : (E / r) * (r * ((g2 : ℚ) - (g1 : ℚ))) = E * ((g2 : ℚ) - (g1 : ℚ)) := by
      field_simp
      ring
    nlinarith [step1, step2, step3, step4]
  · push_neg at hreps
    rw [Financial.annuityPVQ_main (s1 - fireAge) r (by omega) hreps,
      Financial.annuityPVQ_main (s2 - fireAge) r (by omega) hreps]
    have key : ∀ g : ℤ, E * ((1 - (1 + r) ^ (-g)) / r) + S / (1 + r) ^ g =
        E / r + (S - E / r) * (1 + r) ^ (-g) := by
      intro g
      have hpow : (0:ℚ) < (1 + r) ^ g := zpow_pos hq0 g
      rw [zpow_neg]
      field_simp
      ring
    rw [key, key]
    have hmono : (1 + r) ^ (-(s2 - fireAge)) < (1 + r) ^ (-(s1 - fireAge)) :=
      zpow_lt_zpow_right₀ hq1 (by omega)
    have hcoef : (0:ℚ) < E / r - S := by linarith
    nlinarith [mul_pos hcoef (sub_pos.mpr hmono)]

/-- Counterexample to C2 as stated: expenses 1, a single pension of 1/2
(positive), swr 1/100 > 0 and realReturn 1/20 > 0 — yet moving the pension
start from one to two years past the fire age of 60 strictly *lowers* the
closed-form required portfolio (the post-pension perpetuity 50 exceeds the
full perpetuity 20, so delaying it helps). -/
theorem requiredPortfolio_gap_year_monotonicity_fails :
    Financial.requiredPortfolio 1 [⟨1/2, 62⟩] 60 (1/100) (1/20) none 0 [] <
    Financial.requiredPortfolio 1 [⟨1/2, 61⟩] 60 (1/100) (1/20) none 0 [] := by
  simp [Financial.requiredPortfolio, Financial.requiredPortfolioClosed, Financial.segmentStep,
    Financial.activePensionAt, Financial.annuityPVQ, List.insertionSort, List.orderedInsert]
  norm_num

/-- Witness for C2: the amended theorem applied at the repository test's own
configuration (expenses 30 000, pension 12 000 starting at 55 vs 60, swr 4 %,
real return 4 %, fire age 50). -/
theorem requiredPortfolio_gap_year_monotonicity_check :
    (0:ℚ) < 30000 ∧ (0:ℚ) < 12000 ∧ (0:ℚ) < 1/25 ∧
    max 0 ((30000 : ℚ) - 12000) / (1/25) < 30000 / (1/25) ∧
    Financial.requiredPortfolio 30000 [⟨12000, 55⟩] 50 (1/25) (1/25) none 0 [] <
    Financial.requiredPortfolio 30000 [⟨12000, 60⟩] 50 (1/25) (1/25) none 0 [] :=
  ⟨by norm_num, by norm_num, by norm_num, by norm_num,
   requiredPortfolio_gap_year_monotonicity 30000 12000 (1/25) (1/25) 50 55 60
     (by norm_num) (by norm_num) (by norm_num) (by norm_num) (by norm_num)
     (by norm_num) (by norm_num)⟩
namespace Financial

theorem filterPos_sum_nonneg (pensions : List PensionEntry) :
    0 ≤ ((pensions.filter (fun p => 0 < p.annualAmount)).map (·.annualAmount)).sum := by
  apply List.sum_nonneg
  intro x hx
  obtain ⟨p, hp, rfl⟩ := List.mem_map.mp hx
  exact (of_decide_eq_true (List.mem_filter.mp hp).2).le

theorem activePensionAt_nonneg (pensions : List PensionEntry) (age : ℤ) :
    0 ≤ activePensionAt pensions age := by
  apply List.sum_nonneg
  intro x hx
  obtain ⟨p, hp, rfl⟩ := List.mem_map.mp hx
  exact (of_decide_eq_true (List.mem_filter.mp (List.mem_filter.mp hp).1).2).le

theorem activePensionAt_mono (pensions : List PensionEntry) {a b : ℤ} (hab : a ≤ b) :
    activePensionAt pensions a ≤ activePensionAt pensions b := by
  apply List.Sublist.sum_le_sum
  · apply List.Sublist.map
    apply List.monotone_filter_right
    intro p hp
    exact decide_eq_true (le_trans (of_decide_eq_true hp) hab)
  · intro x hx
    obtain ⟨p, hp, rfl⟩ := List.mem_map.mp hx
    exact (of_decide_eq_true (List.mem_filter.mp (List.mem_filter.mp hp).1).2).le

theorem activePensionAt_le_total (pensions : List PensionEntry) (age : ℤ) :
    activePensionAt pensions age ≤
      ((pensions.filter (fun p => 0 < p.annualAmount)).map (·.annualAmount)).sum := by
  apply List.Sublist.sum_le_sum
  · exact List.Sublist.map _ (List.filter_sublist _)
  · intro x hx
    obtain ⟨p, hp, rfl⟩ := List.mem_map.mp hx
    exact (of_decide_eq_true (List.mem_filter.mp hp).2).le

theorem foldr_segmentStep_nonneg (E r : ℚ) (pensions : List PensionEntry)
    (hr : 0 < 1 + r) (l : List (ℤ × ℤ)) (init : ℚ) (h0 : 0 ≤ init) :
    0 ≤ l.foldr (segmentStep E r pensions) init := by
  induction l with
  | nil => exact h0
  | cons hd tl ih =>
    simp only [List.foldr_cons, segmentStep]
    exact add_nonneg (mul_nonneg (le_max_left _ _) (annuityPVQ_nonneg _ _))
      (div_nonneg ih (zpow_pos hr _).le)

theorem foldr_segmentStep_zero (E r : ℚ) (pensions : List PensionEntry)
    (l : List (ℤ × ℤ))
    (hw : ∀ seg ∈ l, max 0 (E - activePensionAt pensions seg.1) = 0) :
    l.foldr (segmentStep E r pensions) 0 = 0 := by
  induction l with
  | nil => rfl
  | cons hd tl ih =>
    have h1 := hw hd (List.mem_cons_self hd tl)
    rw [List.foldr_cons, ih (fun s hs => hw s (List.mem_cons_of_mem hd hs))]
    simp [segmentStep, h1]

theorem requiredPortfolioClosed_nonneg (E : ℚ) (pensions : List PensionEntry)
    (fireAge : ℤ) (swr r : ℚ) (hE : 0 ≤ E) (hswr : 0 ≤ swr) (hr : 0 < 1 + r) :
    0 ≤ requiredPortfolioClosed E pensions fireAge swr r := by
  simp only [requiredPortfolioClosed]
  split_ifs with h1 h2
  · exact div_nonneg hE hswr
  · exact div_nonneg (le_max_left _ _) hswr
  · exact foldr_segmentStep_nonneg E r pensions hr _ _
      (div_nonneg (le_max_left _ _) hswr)

theorem requiredPortfolioClosed_zero_expenses (pensions : List PensionEntry)
    (fireAge : ℤ) (swr r : ℚ) :
    requiredPortfolioClosed 0 pensions fireAge swr r = 0 := by
  have htot := filterPos_sum_nonneg pensions
  simp only [requiredPortfolioClosed]
  split_ifs with h1 h2
  · exact zero_div _
  · rw [max_eq_left (by linarith), zero_div]
  · rw [max_eq_left (by linarith), zero_div]
    apply foldr_segmentStep_zero
    intro seg _
    have := activePensionAt_nonneg pensions seg.1
    rw [max_eq_left (by linarith)]

theorem requiredPortfolioClosed_covered (E : ℚ) (pensions : List PensionEntry)
    (fireAge : ℤ) (swr r : ℚ) (hE : 0 ≤ E)
    (hcov : E ≤ activePensionAt pensions fireAge) :
    requiredPortfolioClosed E pensions fireAge swr r = 0 := by
  have htot := activePensionAt_le_total pensions fireAge
  simp only [requiredPortfolioClosed]
  split_ifs with h1 h2
  · have hempty : pensions.filter (fun p => 0 < p.annualAmount) = [] := by
      simpa [List.isEmpty_iff] using h1
    have hap : activePensionAt pensions fireAge = 0 := by
      unfold activePensionAt
      rw [hempty]
      rfl
    rw [le_antisymm (hap ▸ hcov) hE]
    exact zero_div _
  · rw [max_eq_left (by linarith), zero_div]
  · rw [max_eq_left (by linarith), zero_div]
    apply foldr_segmentStep_zero
    intro seg hseg
    have hmem : seg.1 ∈ fireAge ::
        (((((pensions.filter (fun p => 0 < p.annualAmount)).filter
          (fun p => fireAge < p.startAge)).map (·.startAge)).dedup).insertionSort (· ≤ ·)) :=
      (List.of_mem_zip hseg).1
    have hge : fireAge ≤ seg.1 := by
      rcases List.mem_cons.mp hmem with h | h
      · exact h.ge
      · rw [(List.perm_insertionSort _ _).mem_iff, List.mem_dedup] at h
        obtain ⟨p, hp, heq⟩ := List.mem_map.mp h
        rw [← heq]
        exact (of_decide_eq_true (List.mem_filter.mp hp).2).le
    have := le_trans hcov (activePensionAt_mono pensions hge)
    rw [max_eq_left (by linarith)]

end Financial
namespace Financial

theorem survivesFromStep_covered (E : ℚ) (pensions : List PensionEntry)
    (fireAge : ℤ) (r infl : ℚ) (hr : 0 ≤ 1 + r)
    (hcov : E ≤ activePensionAt pensions fireAge) (p : ℚ) (hp : 0 ≤ p) (k : ℕ) :
    survivesFromStep E (pensions.filter (fun q => 0 < q.annualAmount)) fireAge r infl []
      (some p) k = some (p * (1 + r)) := by
  have hpen : E ≤ (((pensions.filter (fun q => 0 < q.annualAmount)).filter
      (fun q => q.startAge ≤ fireAge + (k : ℤ))).map (·.annualAmount)).sum :=
    le_trans hcov (activePensionAt_mono pensions (by omega))
  have hrec : recurringIncomeAtAge [] (fireAge + (k : ℤ)) fireAge infl = 0 := rfl
  simp only [survivesFromStep, hrec, sub_zero]
  rw [max_eq_left (by linarith), sub_zero,
    if_neg (not_lt.mpr (by positivity : (0:ℚ) ≤ p * (1 + r)))]

theorem foldl_survivesFromStep_covered (E : ℚ) (pensions : List PensionEntry)
    (fireAge : ℤ) (r infl : ℚ) (hr : 0 ≤ 1 + r)
    (hcov : E ≤ activePensionAt pensions fireAge) (l : List ℕ) (p : ℚ) (hp : 0 ≤ p) :
    ∃ q, (l.foldl (survivesFromStep E
        (pensions.filter (fun a => 0 < a.annualAmount)) fireAge r infl []) (some p)) =
      some q ∧ 0 ≤ q := by
  induction l generalizing p with
  | nil => exact ⟨p, rfl, hp⟩
  | cons k tl ih =>
    rw [List.foldl_cons, survivesFromStep_covered E pensions fireAge r infl hr hcov p hp k]
    exact ih (p * (1 + r)) (by positivity)

theorem survivesFrom_covered (E : ℚ) (pensions : List PensionEntry)
    (fireAge L : ℤ) (r infl : ℚ) (hr : 0 ≤ 1 + r)
    (hcov : E ≤ activePensionAt pensions fireAge) (x : ℚ) (hx : 0 ≤ x) :
    survivesFrom E (pensions.filter (fun q => 0 < q.annualAmount)) fireAge L r infl [] x =
      true := by
  unfold survivesFrom
  obtain ⟨q, hq, -⟩ := foldl_survivesFromStep_covered E pensions fireAge r infl hr hcov
    (List.range (L - fireAge + 1).toNat) x hx
  rw [hq]
  rfl

theorem doublingCount_eq_zero (sf : ℚ → Bool) (high0 : ℚ)
    (h : ∃ k : ℕ, sf (high0 * 2 ^ k) = true ∨ (1000000000 : ℚ) ≤ high0 * 2 ^ k)
    (h0 : sf high0 = true ∨ (1000000000 : ℚ) ≤ high0) :
    doublingCount sf high0 h = 0 := by
  unfold doublingCount
  rw [Nat.find_eq_zero]
  simpa using h0

theorem bisectStep_iterate_surviving (sf : ℚ → Bool)
    (hsf : ∀ x, 0 ≤ x → sf x = true) (hval : ℚ) (hh : 0 ≤ hval) (n : ℕ) :
    (bisectStep sf)^[n] (0, hval) = (0, hval / 2 ^ n) := by
  induction n with
  | zero => simp
  | succ n ih =>
    rw [Function.iterate_succ_apply', ih]
    unfold bisectStep
    have hmid : ((0:ℚ) + hval / 2 ^ n) / 2 = hval / 2 ^ (n + 1) := by
      rw [zero_add, div_div, ← pow_succ]
    rw [hmid, if_pos (hsf _ (by positivity))]

theorem bisectStep_iterate_nonneg (sf : ℚ → Bool) (n : ℕ) (p : ℚ × ℚ)
    (h1 : 0 ≤ p.1) (h2 : 0 ≤ p.2) :
    0 ≤ ((bisectStep sf)^[n] p).1 ∧ 0 ≤ ((bisectStep sf)^[n] p).2 := by
  induction n generalizing p with
  | zero => exact ⟨h1, h2⟩
  | succ n ih =>
    rw [Function.iterate_succ_apply]
    apply ih
    · simp only [bisectStep]
      split_ifs
      · exact h1
      · positivity
    · simp only [bisectStep]
      split_ifs
      · positivity
      · exact h2

end Financial
namespace Financial

theorem requiredPortfolioBisect_zero_expenses (pensions : List PensionEntry)
    (fireAge : ℤ) (swr r : ℚ) (L : ℤ) (infl : ℚ) (rec : List RecurringIncomeEntry) :
    requiredPortfolioBisect 0 pensions fireAge swr r L infl rec = 0 := by
  simp only [requiredPortfolioBisect]
  rw [dif_pos le_rfl]

theorem requiredPortfolioBisect_nonneg (E : ℚ) (pensions : List PensionEntry)
    (fireAge : ℤ) (swr r : ℚ) (L : ℤ) (infl : ℚ) (rec : List RecurringIncomeEntry) :
    0 ≤ requiredPortfolioBisect E pensions fireAge swr r L infl rec := by
  simp only [requiredPortfolioBisect]
  split_ifs with h
  · exact le_rfl
  · have hE : 0 < E := lt_of_not_ge h
    have h1 : (0:ℚ) < max (E / max (1/100) swr) E := lt_of_lt_of_le hE (le_max_right _ _)
    refine (bisectStep_iterate_nonneg _ 60 _ le_rfl ?_).2
    exact mul_nonneg (mul_nonneg h1.le (by norm_num)) (pow_nonneg (by norm_num) _)

theorem requiredPortfolioBisect_covered (E : ℚ) (pensions : List PensionEntry)
    (fireAge : ℤ) (swr r : ℚ) (L : ℤ) (infl : ℚ)
    (hE : 0 < E) (hr : 0 ≤ 1 + r) (hcov : E ≤ activePensionAt pensions fireAge) :
    requiredPortfolioBisect E pensions fireAge swr r L infl [] =
      max (E / max (1/100) swr) E * 2 / 2 ^ 60 := by
  simp only [requiredPortfolioBisect]
  rw [dif_neg (not_le.mpr hE)]
  have hsf : ∀ x : ℚ, 0 ≤ x →
      survivesFrom E (List.filter (fun p => decide (0 < p.annualAmount)) pensions)
        fireAge L r infl [] x = true :=
    fun x hx => survivesFrom_covered E pensions fireAge L r infl hr hcov x hx
  have h1 : (0:ℚ) < max (E / max (1/100) swr) E := lt_of_lt_of_le hE (le_max_right _ _)
  have key : ∀ hex, ((bisectStep
      (survivesFrom E (List.filter (fun p => decide (0 < p.annualAmount)) pensions)
        fireAge L r infl []))^[60]
      (0, max (E / max (1/100) swr) E * 2 * 2 ^ doublingCount
        (survivesFrom E (List.filter (fun p => decide (0 < p.annualAmount)) pensions)
          fireAge L r infl [])
        (max (E / max (1/100) swr) E * 2) hex)).2 =
      max (E / max (1/100) swr) E * 2 / 2 ^ 60 := by
    intro hex
    rw [doublingCount_eq_zero _ _ hex (Or.inl (hsf _ (by linarith))), pow_zero, mul_one]
    rw [bisectStep_iterate_surviving _ hsf _ (by linarith) 60]
  exact key _

end Financial
/-- **C5 (amended).** `requiredPortfolio` edge cases: (1) for nonnegative
expenses, positive swr and realReturn > −1 the target is never negative in
either mode; (2) zero expenses give target exactly 0 in either mode; (3) when
the pensions already active at `fireAge` cover the expenses, the closed-form
target is exactly 0, while the bisection target is not 0 but the halved-60-
times initial bracket `max(E/max(0.01, swr), E)·2 / 2⁶⁰` (a positive
residual of the binary search, which never reaches 0 exactly — see the
counterexample). -/
theorem requiredPortfolio_edge_cases :
    (∀ (E : ℚ) (pensions : List Financial.PensionEntry) (fireAge : ℤ) (swr r : ℚ)
        (L : ℤ) (infl : ℚ) (rec : List Financial.RecurringIncomeEntry),
      0 ≤ E → 0 < swr → -1 < r →
      0 ≤ Financial.requiredPortfolio E pensions fireAge swr r none infl rec ∧
      0 ≤ Financial.requiredPortfolio E pensions fireAge swr r (some L) infl rec) ∧
    (∀ (pensions : List Financial.PensionEntry) (fireAge : ℤ) (swr r : ℚ)
        (L : ℤ) (infl : ℚ) (rec : List Financial.RecurringIncomeEntry),
      Financial.requiredPortfolio 0 pensions fireAge swr r none infl rec = 0 ∧
      Financial.requiredPortfolio 0 pensions fireAge swr r (some L) infl rec = 0) ∧
    (∀ (E : ℚ) (pensions : List Financial.PensionEntry) (fireAge : ℤ) (swr r : ℚ)
        (L : ℤ),
      0 ≤ E → -1 < r → E ≤ Financial.activePensionAt pensions fireAge →
      Financial.requiredPortfolio E pensions fireAge swr r none 0 [] = 0 ∧
      (0 < E → Financial.requiredPortfolio E pensions fireAge swr r (some L) 0 [] =
        max (E / max (1/100) swr) E * 2 / 2 ^ 60)) := by
  refine ⟨?_, ?_, ?_⟩
  · intro E pensions fireAge swr r L infl rec hE hswr hr
    exact ⟨Financial.requiredPortfolioClosed_nonneg E pensions fireAge swr r hE hswr.le
        (by linarith),
      Financial.requiredPortfolioBisect_nonneg E pensions fireAge swr r L infl rec⟩
  · intro pensions fireAge swr r L infl rec
    exact ⟨Financial.requiredPortfolioClosed_zero_expenses pensions fireAge swr r,
      Financial.requiredPortfolioBisect_zero_expenses pensions fireAge swr r L infl rec⟩
  · intro E pensions fireAge swr r L hE hr hcov
    refine ⟨Financial.requiredPortfolioClosed_covered E pensions fireAge swr r hE hcov, ?_⟩
    intro hE'
    exact Financial.requiredPortfolioBisect_covered E pensions fireAge swr r L 0 hE'
      (by linarith) hcov

/-- Counterexample to C5 as stated: with expenses 1 fully covered by a
pension of 2 already active at the fire age of 60 (swr 1/25 > 0, realReturn
1/100 > −1), the bisection mode does not return 0 — the binary search halves
the surviving bracket 60 times and returns the positive residual 50/2⁶⁰. -/
theorem requiredPortfolio_edge_cases_bisection_not_zero :
    Financial.requiredPortfolio 1 [⟨2, 50⟩] 60 (1/25) (1/100) (some 60) 0 [] ≠ 0 := by
  have h := Financial.requiredPortfolioBisect_covered 1 [⟨2, 50⟩] 60 (1/25) (1/100) 60 0
    (by norm_num) (by norm_num) (by norm_num [Financial.activePensionAt, List.filter])
  rw [show Financial.requiredPortfolio 1 [⟨2, 50⟩] 60 (1/25) (1/100) (some 60) 0 [] =
      Financial.requiredPortfolioBisect 1 [⟨2, 50⟩] 60 (1/25) (1/100) 60 0 [] from rfl, h]
  norm_num

/-- Witness for C5: all three parts of the amended theorem applied at a
concrete covered configuration (expenses 1, pension 2 active from age 50,
fire age 60, swr 1/25, real return 1/100, horizon 60). -/
theorem requiredPortfolio_edge_cases_check :
    (0:ℚ) ≤ 1 ∧ (0:ℚ) < 1/25 ∧ (-1:ℚ) < 1/100 ∧
    (1:ℚ) ≤ Financial.activePensionAt [⟨2, 50⟩] 60 ∧
    0 ≤ Financial.requiredPortfolio 1 [⟨2, 50⟩] 60 (1/25) (1/100) none 0 [] ∧
    Financial.requiredPortfolio 0 [⟨2, 50⟩] 60 (1/25) (1/100) (some 60) 0 [] = 0 ∧
    Financial.requiredPortfolio 1 [⟨2, 50⟩] 60 (1/25) (1/100) none 0 [] = 0 ∧
    Financial.requiredPortfolio 1 [⟨2, 50⟩] 60 (1/25) (1/100) (some 60) 0 [] =
      max ((1:ℚ) / max (1/100) (1/25)) 1 * 2 / 2 ^ 60 :=
  ⟨by norm_num, by norm_num, by norm_num,
   by norm_num [Financial.activePensionAt, List.filter],
   (requiredPortfolio_edge_cases.1 1 [⟨2, 50⟩] 60 (1/25) (1/100) 60 0 []
     (by norm_num) (by norm_num) (by norm_num)).1,
   (requiredPortfolio_edge_cases.2.1 [⟨2, 50⟩] 60 (1/25) (1/100) 60 0 []).2,
   (requiredPortfolio_edge_cases.2.2 1 [⟨2, 50⟩] 60 (1/25) (1/100) 60
     (by norm_num) (by norm_num)
     (by norm_num [Financial.activePensionAt, List.filter])).1,
   (requiredPortfolio_edge_cases.2.2 1 [⟨2, 50⟩] 60 (1/25) (1/100) 60
     (by norm_num) (by norm_num)
     (by norm_num [Financial.activePensionAt, List.filter])).2 (by norm_num)⟩
namespace Calculator

theorem calcStep_projections (inputs : FireInputs) (startYear : ℤ) (i : ℕ) (st : CalcState) :
    ∃ e : YearlyProjection,
      (calcStep inputs startYear i st).projections = st.projections ++ [e] ∧
      e.age = inputs.personalInfo.currentAge + (i : ℤ) ∧
      0 ≤ e.portfolioValue ∧ 0 ≤ e.portfolioOptimistic ∧ 0 ≤ e.portfolioPessimistic := by
  simp only [calcStep]
  split_ifs
  all_goals exact ⟨_, rfl, rfl, le_max_left _ _, le_max_left _ _, le_max_left _ _⟩

theorem calcRun_projections_map_age (inputs : FireInputs) (startYear : ℤ) (n : ℕ) :
    ((List.range n).foldl (fun st i => calcStep inputs startYear i st)
        (calcInitState inputs)).projections.map (·.age) =
      (List.range n).map (fun k : ℕ => inputs.personalInfo.currentAge + (k : ℤ)) := by
  induction n with
  | zero => rfl
  | succ n ih =>
    rw [List.range_succ, List.foldl_append, List.foldl_cons, List.foldl_nil]
    obtain ⟨e, he, hage, -, -, -⟩ := calcStep_projections inputs startYear n
      ((List.range n).foldl (fun st i => calcStep inputs startYear i st) (calcInitState inputs))
    rw [he, List.map_append, ih]
    simp [hage]

theorem calcRun_projections_nonneg (inputs : FireInputs) (startYear : ℤ) (n : ℕ) :
    ∀ e ∈ ((List.range n).foldl (fun st i => calcStep inputs startYear i st)
        (calcInitState inputs)).projections,
      0 ≤ e.portfolioValue ∧ 0 ≤ e.portfolioOptimistic ∧ 0 ≤ e.portfolioPessimistic := by
  induction n with
  | zero => intro e he; exact absurd he (List.not_mem_nil e)
  | succ n ih =>
    rw [List.range_succ, List.foldl_append, List.foldl_cons, List.foldl_nil]
    obtain ⟨e', he', -, h1, h2, h3⟩ := calcStep_projections inputs startYear n
      ((List.range n).foldl (fun st i => calcStep inputs startYear i st) (calcInitState inputs))
    rw [he']
    intro e he
    rcases List.mem_append.mp he with h | h
    · exact ih e h
    · rw [List.mem_singleton.mp h]
      exact ⟨h1, h2, h3⟩

end Calculator
/-- **C7.** Projection horizon shape: with `currentAge < lifeExpectancy`,
`calculateFire` returns exactly `lifeExpectancy − currentAge + 1` yearly
projections and the k-th entry's age is `currentAge + k` (hence the first age
is `currentAge`, the last is `lifeExpectancy`, and ages ascend). -/
theorem calculateFire_projection_horizon (inputs : FireInputs) (startYear : ℤ)
    (h : inputs.personalInfo.currentAge < inputs.personalInfo.lifeExpectancy) :
    ((Calculator.calculateFire inputs startYear).yearlyProjections.length : ℤ) =
      inputs.personalInfo.lifeExpectancy - inputs.personalInfo.currentAge + 1 ∧
    (Calculator.calculateFire inputs startYear).yearlyProjections.map (·.age) =
      (List.range (inputs.personalInfo.lifeExpectancy -
        inputs.personalInfo.currentAge + 1).toNat).map
        (fun k : ℕ => inputs.personalInfo.currentAge + (k : ℤ)) := by
  have hmap : (Calculator.calculateFire inputs startYear).yearlyProjections.map (·.age) =
      (List.range (inputs.personalInfo.lifeExpectancy -
        inputs.personalInfo.currentAge + 1).toNat).map
        (fun k : ℕ => inputs.personalInfo.currentAge + (k : ℤ)) :=
    Calculator.calcRun_projections_map_age inputs startYear _
  refine ⟨?_, hmap⟩
  have hlen := congrArg List.length hmap
  rw [List.length_map, List.length_map, List.length_range] at hlen
  rw [hlen, Int.toNat_of_nonneg (by omega)]

/-- Witness for C7: on the three-year probe run the horizon has exactly
three rows. -/
theorem calculateFire_projection_horizon_check :
    probeInputs.personalInfo.currentAge < probeInputs.personalInfo.lifeExpectancy ∧
    ((Calculator.calculateFire probeInputs 2025).yearlyProjections.length : ℤ) = 3 := by
  refine ⟨by decide, ?_⟩
  have h := (calculateFire_projection_horizon probeInputs 2025 (by decide)).1
  simpa [probeInputs] using h

/-- **C8.** Displayed portfolio non-negativity: every yearly projection row
of `calculateFire` has nonnegative base, optimistic and pessimistic
portfolio values (they are stored through `max(0, ·)` in both the
accumulation and the drawdown branch). -/
theorem calculateFire_displayed_portfolio_nonneg (inputs : FireInputs) (startYear : ℤ) :
    ∀ e ∈ (Calculator.calculateFire inputs startYear).yearlyProjections,
      0 ≤ e.portfolioValue ∧ 0 ≤ e.portfolioOptimistic ∧ 0 ≤ e.portfolioPessimistic :=
  fun e he => Calculator.calcRun_projections_nonneg inputs startYear _ e he

/-- Witness for C8: the first row of the probe run is a member and its
displayed portfolio value is nonnegative. -/
theorem calculateFire_displayed_portfolio_nonneg_check :
    (Calculator.calculateFire probeInputs 2025).yearlyProjections.head! ∈
      (Calculator.calculateFire probeInputs 2025).yearlyProjections ∧
    0 ≤ ((Calculator.calculateFire probeInputs 2025).yearlyProjections.head!).portfolioValue := by
  have hmap : (Calculator.calculateFire probeInputs 2025).yearlyProjections.map (·.age) =
      (List.range 3).map (fun k : ℕ => probeInputs.personalInfo.currentAge + (k : ℤ)) :=
    Calculator.calcRun_projections_map_age probeInputs 2025 3
  have hne : (Calculator.calculateFire probeInputs 2025).yearlyProjections ≠ [] := by
    intro hnil
    rw [hnil] at hmap
    simp [List.range_succ] at hmap
  have hmem : (Calculator.calculateFire probeInputs 2025).yearlyProjections.head! ∈
      (Calculator.calculateFire probeInputs 2025).yearlyProjections := List.head!_mem_self hne
  exact ⟨hmem, (calculateFire_displayed_portfolio_nonneg probeInputs 2025 _ hmem).1⟩
/-- **C9.** FIRE-never-reached is a graceful outcome: when the year loop
ends with no fire age set, `calculateFire` still returns a result whose
`fireAge` is the life expectancy; and when no projection row is in the
retired phase the success rate is exactly 100 (no division by zero). -/
theorem calculateFire_never_fire_graceful (inputs : FireInputs) (startYear : ℤ) :
    ((Calculator.calcFinalState inputs startYear).fireAge = none →
      (Calculator.calculateFire inputs startYear).fireAge =
        inputs.personalInfo.lifeExpectancy) ∧
    ((Calculator.calculateFire inputs startYear).yearlyProjections.filter (·.isRetired) = [] →
      (Calculator.calculateFire inputs startYear).successRate = 100) := by
  constructor
  · intro h
    simp only [Calculator.calculateFire]
    rw [h]
    rfl
  · intro h
    simp only [Calculator.calculateFire] at h ⊢
    rw [h]
    rfl
theorem probe_final_fireAge_none :
    (Calculator.calcFinalState probeInputs 2025).fireAge = none := by
  simp [Calculator.calcFinalState, Calculator.calcStep, Calculator.calcInitState,
    Calculator.requiredPortfolio, Calculator.annuityPV, Calculator.netReturnOf,
    Calculator.inflationOf, Calculator.realReturnOf, Calculator.swrOf,
    Calculator.postRetirementFactorOf, probeInputs, List.range_succ]
  norm_num

theorem probe_no_retired_rows :
    (Calculator.calculateFire probeInputs 2025).yearlyProjections.filter (·.isRetired) = [] := by
  show ((Calculator.calcFinalState probeInputs 2025).projections.filter (·.isRetired)) = []
  simp [Calculator.calcFinalState, Calculator.calcStep, Calculator.calcInitState,
    Calculator.requiredPortfolio, Calculator.annuityPV, Calculator.netReturnOf,
    Calculator.inflationOf, Calculator.realReturnOf, Calculator.swrOf,
    Calculator.postRetirementFactorOf, probeInputs, List.range_succ]
  norm_num

/-- Witness for C9: the probe run never reaches FIRE; its reported fire age
is the life expectancy 32 and its success rate is 100. -/
theorem calculateFire_never_fire_graceful_check :
    (Calculator.calcFinalState probeInputs 2025).fireAge = none ∧
    (Calculator.calculateFire probeInputs 2025).fireAge = 32 ∧
    (Calculator.calculateFire probeInputs 2025).yearlyProjections.filter (·.isRetired) = [] ∧
    (Calculator.calculateFire probeInputs 2025).successRate = 100 := by
  refine ⟨probe_final_fireAge_none, ?_, probe_no_retired_rows, ?_⟩
  · have h := (calculateFire_never_fire_graceful probeInputs 2025).1 probe_final_fireAge_none
    simpa [probeInputs] using h
  · exact (calculateFire_never_fire_graceful probeInputs 2025).2 probe_no_retired_rows
/-- **C10.** The deterministic projection engine ignores the annual fee
rate: changing only `investmentStrategy.annualFees` (clock held fixed via the
explicit `startYear`) leaves the whole `FireResult` unchanged, and the net
return it uses is `expectedAnnualReturn × (1 − capitalGainsTaxRate)`; the
Monte Carlo engine's arithmetic net return, by contrast, does move with the
fee rate. -/
theorem calculateFire_ignores_annualFees (inputs : FireInputs) (fees : ℚ) (startYear : ℤ) :
    Calculator.calculateFire (setAnnualFees inputs fees) startYear =
      Calculator.calculateFire inputs startYear ∧
    Calculator.netReturnOf inputs =
      (inputs.investmentStrategy.expectedAnnualReturn / 100) *
        (1 - inputs.investmentStrategy.capitalGainsTaxRate / 100) ∧
    (fees ≠ inputs.investmentStrategy.annualFees →
      MonteCarlo.mcArithmeticNet (setAnnualFees inputs fees) ≠
        MonteCarlo.mcArithmeticNet inputs) := by
  refine ⟨?_, rfl, ?_⟩
  · obtain ⟨pi, inc, exp, ast, strat, fg⟩ := inputs
    obtain ⟨er, vol, fee, tax⟩ := strat
    rfl
  · intro hne heq
    apply hne
    simp only [MonteCarlo.mcArithmeticNet, setAnnualFees] at heq
    linarith

/-- Witness for C10: raising the probe's fee rate from 0 to 1 % leaves the
deterministic result untouched while changing the Monte Carlo net return. -/
theorem calculateFire_ignores_annualFees_check :
    Calculator.calculateFire (setAnnualFees probeInputs 1) 2025 =
      Calculator.calculateFire probeInputs 2025 ∧
    (1:ℚ) ≠ probeInputs.investmentStrategy.annualFees ∧
    MonteCarlo.mcArithmeticNet (setAnnualFees probeInputs 1) ≠
      MonteCarlo.mcArithmeticNet probeInputs :=
  ⟨(calculateFire_ignores_annualFees probeInputs 1 2025).1,
   by norm_num [probeInputs],
   (calculateFire_ignores_annualFees probeInputs 1 2025).2.2 (by norm_num [probeInputs])⟩
/-- **C1.** `runMonteCarlo` is deterministic: the source derives every
random draw from `mulberry32(hashSeed(stringify(inputs) + targetFireAge))`
and reads no ambient state, so the embedding is a pure function of
`(inputs, numSimulations, targetFireAge)` — two calls with identical
arguments return identical percentile arrays, success rate, fire-age
distribution and median fire age (indeed identical results). -/
theorem runMonteCarlo_deterministic (i₁ i₂ : FireInputs) (n₁ n₂ : ℕ)
    (t₁ t₂ : Option ℤ) (hi : i₁ = i₂) (hn : n₁ = n₂) (ht : t₁ = t₂) :
    (MonteCarlo.runMonteCarlo i₁ n₁ t₁).p10 = (MonteCarlo.runMonteCarlo i₂ n₂ t₂).p10 ∧
    (MonteCarlo.runMonteCarlo i₁ n₁ t₁).p25 = (MonteCarlo.runMonteCarlo i₂ n₂ t₂).p25 ∧
    (MonteCarlo.runMonteCarlo i₁ n₁ t₁).p50 = (MonteCarlo.runMonteCarlo i₂ n₂ t₂).p50 ∧
    (MonteCarlo.runMonteCarlo i₁ n₁ t₁).p75 = (MonteCarlo.runMonteCarlo i₂ n₂ t₂).p75 ∧
    (MonteCarlo.runMonteCarlo i₁ n₁ t₁).p90 = (MonteCarlo.runMonteCarlo i₂ n₂ t₂).p90 ∧
    (MonteCarlo.runMonteCarlo i₁ n₁ t₁).successRate =
      (MonteCarlo.runMonteCarlo i₂ n₂ t₂).successRate ∧
    (MonteCarlo.runMonteCarlo i₁ n₁ t₁).fireAgeDistribution =
      (MonteCarlo.runMonteCarlo i₂ n₂ t₂).fireAgeDistribution ∧
    (MonteCarlo.runMonteCarlo i₁ n₁ t₁).medianFireAge =
      (MonteCarlo.runMonteCarlo i₂ n₂ t₂).medianFireAge ∧
    MonteCarlo.runMonteCarlo i₁ n₁ t₁ = MonteCarlo.runMonteCarlo i₂ n₂ t₂ := by
  subst hi
  subst hn
  subst ht
  exact ⟨rfl, rfl, rfl, rfl, rfl, rfl, rfl, rfl, rfl⟩

/-- Witness for C1: two textually separate calls on the probe run with the
same simulation count and target age. -/
theorem runMonteCarlo_deterministic_check :
    probeInputs = probeInputs ∧ (500 : ℕ) = 500 ∧ (some (40:ℤ)) = some 40 ∧
    MonteCarlo.runMonteCarlo probeInputs 500 (some 40) =
      MonteCarlo.runMonteCarlo probeInputs 500 (some 40) :=
  ⟨rfl, rfl, rfl,
   (runMonteCarlo_deterministic probeInputs probeInputs 500 500 (some 40) (some 40)
     rfl rfl rfl).2.2.2.2.2.2.2.2⟩
namespace MonteCarlo

theorem mcYearStep_target_proj (inputs : FireInputs) (t : ℤ) (i : ℕ) (st : MCSimState) :
    ((mcYearStep inputs (some t) i st).fireAge,
      (mcYearStep inputs (some t) i st).isRetired) =
      if st.isRetired then (st.fireAge, true)
      else if t ≤ inputs.personalInfo.currentAge + (i : ℤ) ∧ st.fireAge = none then
        (some (inputs.personalInfo.currentAge + (i : ℤ)), true)
      else (st.fireAge, st.isRetired) := by
  cases hb : st.isRetired with
  | true => simp [mcYearStep, hb]
  | false =>
    by_cases h2 : t ≤ inputs.personalInfo.currentAge + (i : ℤ) ∧ st.fireAge = none
    · simp [mcYearStep, hb, h2]
    · simp [mcYearStep, hb, h2]

end MonteCarlo
namespace MonteCarlo

theorem mcRun_target_fireAge (inputs : FireInputs) (t : ℤ) (rng : ℕ) (k : ℕ) :
    (((List.range k).foldl (fun st i => mcYearStep inputs (some t) i st)
        (mcInitSimState inputs rng)).fireAge,
      ((List.range k).foldl (fun st i => mcYearStep inputs (some t) i st)
        (mcInitSimState inputs rng)).isRetired) =
      if (t - inputs.personalInfo.currentAge).toNat < k then
        (some (inputs.personalInfo.currentAge + ((t - inputs.personalInfo.currentAge).toNat : ℤ)),
          true)
      else (none, false) := by
  induction k with
  | zero => simp [mcInitSimState]
  | succ k ih =>
    rw [List.range_succ, List.foldl_append, List.foldl_cons, List.foldl_nil]
    have hstep := mcYearStep_target_proj inputs t k
      ((List.range k).foldl (fun st i => mcYearStep inputs (some t) i st)
        (mcInitSimState inputs rng))
    by_cases hk : (t - inputs.personalInfo.currentAge).toNat < k
    · rw [if_pos hk] at ih
      have h1 := congrArg Prod.fst ih
      have h2 := congrArg Prod.snd ih
      simp only at h1 h2
      rw [h2, if_pos rfl] at hstep
      rw [hstep, h1, if_pos (Nat.lt_succ_of_lt hk)]
    · rw [if_neg hk] at ih
      have h1 := congrArg Prod.fst ih
      have h2 := congrArg Prod.snd ih
      simp only at h1 h2
      rw [h2] at hstep
      rw [if_neg (by simp)] at hstep
      by_cases ht : t ≤ inputs.personalInfo.currentAge + (k : ℤ)
      · rw [if_pos ⟨ht, h1⟩] at hstep
        have hke : (t - inputs.personalInfo.currentAge).toNat = k := by omega
        rw [hstep, if_pos (by omega), hke]
      · rw [if_neg (by tauto)] at hstep
        rw [hstep, h1, if_neg (by omega)]
end MonteCarlo
namespace MonteCarlo

theorem mcRunAll_fireAges_target (inputs : FireInputs) (n : ℕ) (t : ℤ) :
    (mcRunAll inputs n (some t)).fireAges =
      List.replicate n
        (if (t - inputs.personalInfo.currentAge).toNat <
            (inputs.personalInfo.lifeExpectancy - inputs.personalInfo.currentAge + 1).toNat
         then inputs.personalInfo.currentAge + ((t - inputs.personalInfo.currentAge).toNat : ℤ)
         else inputs.personalInfo.lifeExpectancy) := by
  have hsim : ∀ rng : ℕ, (mcRunSim inputs (some t) rng).fireAge.getD
      inputs.personalInfo.lifeExpectancy =
      (if (t - inputs.personalInfo.currentAge).toNat <
          (inputs.personalInfo.lifeExpectancy - inputs.personalInfo.currentAge + 1).toNat
       then inputs.personalInfo.currentAge + ((t - inputs.personalInfo.currentAge).toNat : ℤ)
       else inputs.personalInfo.lifeExpectancy) := by
    intro rng
    have h := mcRun_target_fireAge inputs t rng
      (inputs.personalInfo.lifeExpectancy - inputs.personalInfo.currentAge + 1).toNat
    have h1 := congrArg Prod.fst h
    simp only at h1
    unfold mcRunSim
    split_ifs with hc
    · rw [if_pos hc] at h1
      rw [h1]
      rfl
    · rw [if_neg hc] at h1
      rw [h1]
      rfl
  induction n with
  | zero => rfl
  | succ n ih =>
    unfold mcRunAll at ih ⊢
    rw [List.range_succ, List.foldl_append, List.foldl_cons, List.foldl_nil]
    dsimp only
    rw [ih, hsim]
    exact (List.replicate_succ' n _).symm

end MonteCarlo
/-- **C3 (amended).** Monte Carlo target-age pinning holds provided the
target lies within the simulated horizon and at least one path is run: when
`currentAge ≤ targetFireAge ≤ lifeExpectancy` would make the forced check
reachable, every recorded fire age, every histogram age and the median fire
age are at least `targetFireAge`.  (When `targetFireAge > lifeExpectancy` no
year satisfies `age ≥ targetFireAge`, so paths record `lifeExpectancy`
instead — see the counterexample.) -/
theorem runMonteCarlo_target_age_pinned (inputs : FireInputs) (n : ℕ) (t : ℤ)
    (_hCL : inputs.personalInfo.currentAge ≤ inputs.personalInfo.lifeExpectancy)
    (htL : t ≤ inputs.personalInfo.lifeExpectancy) (hn : 1 ≤ n) :
    (∀ a ∈ MonteCarlo.mcFireAges inputs n (some t), t ≤ a) ∧
    (∀ p ∈ (MonteCarlo.runMonteCarlo inputs n (some t)).fireAgeDistribution, t ≤ p.1) ∧
    t ≤ (MonteCarlo.runMonteCarlo inputs n (some t)).medianFireAge := by
  have hrep := MonteCarlo.mcRunAll_fireAges_target inputs n t
  set rec := (if (t - inputs.personalInfo.currentAge).toNat <
      (inputs.personalInfo.lifeExpectancy - inputs.personalInfo.currentAge + 1).toNat
    then inputs.personalInfo.currentAge + ((t - inputs.personalInfo.currentAge).toNat : ℤ)
    else inputs.personalInfo.lifeExpectancy) with hrec
  have hrecge : t ≤ rec := by
    rw [hrec]
    split_ifs with hc
    · omega
    · omega
  have hmem : ∀ a ∈ (MonteCarlo.mcRunAll inputs n (some t)).fireAges, t ≤ a := by
    intro a ha
    rw [hrep] at ha
    rw [List.eq_of_mem_replicate ha]
    exact hrecge
  refine ⟨hmem, ?_, ?_⟩
  · intro p hp
    simp only [MonteCarlo.runMonteCarlo] at hp
    rw [(List.perm_insertionSort _ _).mem_iff] at hp
    obtain ⟨a, ha, heq⟩ := List.mem_map.mp hp
    rw [← heq]
    exact hmem a (List.mem_dedup.mp ha)
  · simp only [MonteCarlo.runMonteCarlo]
    have hlen : ((MonteCarlo.mcRunAll inputs n (some t)).fireAges.insertionSort
        (· ≤ ·)).length = n := by
      rw [List.length_insertionSort, hrep, List.length_replicate]
    have hidx : n / 2 < ((MonteCarlo.mcRunAll inputs n (some t)).fireAges.insertionSort
        (· ≤ ·)).length := by
      rw [hlen]
      exact Nat.div_lt_self (by omega) (by norm_num)
    rw [List.getD_eq_get _ _ hidx]
    have hm := List.get_mem ((MonteCarlo.mcRunAll inputs n (some t)).fireAges.insertionSort
        (· ≤ ·)) (n / 2) hidx
    rw [(List.perm_insertionSort _ _).mem_iff] at hm
    exact hmem _ hm

/-- Counterexample to C3 as stated: on the probe inputs (ages 30→32) with
`targetFireAge = 33 > lifeExpectancy`, the single path never reaches an age
`≥ 33`, records the fallback `lifeExpectancy = 32`, and the reported median
fire age 32 is strictly below the supplied target. -/
theorem runMonteCarlo_target_age_pinning_fails :
    (MonteCarlo.runMonteCarlo probeInputs 1 (some 33)).medianFireAge = 32 ∧ (32 : ℤ) < 33 := by
  refine ⟨?_, by norm_num⟩
  have hrep := MonteCarlo.mcRunAll_fireAges_target probeInputs 1 33
  simp only [MonteCarlo.runMonteCarlo]
  rw [hrep]
  norm_num [probeInputs, List.insertionSort, List.orderedInsert]

/-- Witness for C3: with target 31 inside the probe's horizon 30→32 and one
path, the amended theorem pins the median fire age at or above 31. -/
theorem runMonteCarlo_target_age_pinned_check :
    probeInputs.personalInfo.currentAge ≤ probeInputs.personalInfo.lifeExpectancy ∧
    (31 : ℤ) ≤ probeInputs.personalInfo.lifeExpectancy ∧ (1 : ℕ) ≤ 1 ∧
    (31 : ℤ) ≤ (MonteCarlo.runMonteCarlo probeInputs 1 (some 31)).medianFireAge :=
  ⟨by decide, by decide, by decide,
   (runMonteCarlo_target_age_pinned probeInputs 1 31 (by decide) (by decide)
     (by decide)).2.2⟩
